import Mathlib

/-!
Verification development for the merc macro-to-C translation engine.

The definitions below are a shallow embedding of the Python sources
`predicates/interface_equivalent.py` and `macros.py`, together with the
loop body of the legacy `generate_macro_translations` from
`analyze_transformations.py`.  Python `set[Invocation]` values are
modelled as `List Invocation` carrying an explicit iteration order;
Python booleans become `Bool`; the enumerations become inductive types
with the source's constructor names; a raised exception becomes `none`.

`macrotranslator.py` is deliberately not embedded: as frozen it has no
executable semantics against its sibling modules.  It imports
`TranslationType` from `translationstats.py`, which defines no such name,
so the module never loads; past that, `get_macro_record` calls the
three-parameter `ie_def` with two arguments and compares the returned
`(IEResult, target)` tuple with `IEResult.VALID`; the attribute accesses
`SkipType.NOT_INTERFACE_EQUIVALENT`, `SkipType.CANT_FIT_ICE_IN_ENUM_SIZE`
and `SkipType.INVOCATION_REQUIRES_CONSTANT_EXPRESSION` do not exist on
the `SkipType` union alias; and every `SkipRecord`/`TranslationRecord`
construction omits the dataclasses' required `invocations` field.  No
function of that module can run, so no theorem here evaluates it.
-/

namespace Merc

/-- AST kind of an invocation's expansion (`macros.py`, `Invocation.ASTKind`
is a `Literal['Decl', 'Stmt', 'TypeLoc', 'Expr']`). -/
inductive ASTKind
  | Decl
  | Stmt
  | TypeLoc
  | Expr
  deriving DecidableEq

/-- `IEResult` enumeration from `predicates/interface_equivalent.py`. -/
inductive IEResult
  | VALID
  | MACRO_NEVER_EXPANDED
  | POLYMORPHIC
  | NON_GLOBAL_SCOPE
  | SYNTACTICALLY_INVALID_PROPERTY
  | INVOKED_WHERE_ICE_REQUIRED_AND_GREATER_THAN_INT_SIZE
  | INVOKED_WHERE_CONSTANT_EXPRESSION_REQUIRED
  | EXPANSION_NOT_CONSTANT_EXPRESSION
  | EXPANSION_NOT_ICE
  | EXPANSION_TYPE_VOID
  | EXPANSION_TYPE_NON_VOID
  | USE_METAPROGRAMMING
  | CALLED_BY_NAME
  | CAPTURES_ENVIRONMENT
  | ADDRESSABLE_VALUE_REQUIRED
  | INVALID_STATEMENT_KIND
  | ARGUMENT_ADDRESSABLE_VALUE_REQUIRED
  | ARGUMENT_TYPE_VOID
  | ARGUMENT_TYPE_NOT_EXPRESSION
  | ARGUMENT_INVOKED_WHERE_CONSTANT_EXPRESSION_REQUIRED
  | ARGUMENT_CAPTURES_ENVIRONMENT
  | ARGUMENT_CALLED_BY_NAME
  deriving DecidableEq

/-- `TranslationTarget` enumeration from `predicates/interface_equivalent.py`. -/
inductive TranslationTarget
  | GLOBAL_VARIABLE
  | ENUM
  | NON_VOID_FUNCTION
  | VOID_FUNCTION
  deriving DecidableEq

/-- `IntSize` from `translationconfig.py` (an `IntEnum` with values 16 and 32). -/
inductive IntSize
  | Int16
  | Int32
  deriving DecidableEq

/-- `TranslationConfig` from `translationconfig.py`. -/
structure TranslationConfig where
  int_size : IntSize
  deriving DecidableEq

/-- `Macro` dataclass from `macros.py`. -/
structure Macro where
  Name : String
  IsObjectLike : Bool
  IsDefinitionLocationValid : Bool
  IsDefinedAtGlobalScope : Bool
  Body : String
  DefinitionLocation : String
  EndDefinitionLocation : String
  deriving DecidableEq

/-- `Macro.IsFunctionLike` property from `macros.py`. -/
def Macro.IsFunctionLike (m : Macro) : Bool :=
  !m.IsObjectLike

/-- `Invocation` dataclass from `macros.py` (all fields). -/
structure Invocation where
  Name : String
  DefinitionLocation : String
  InvocationLocation : String
  ASTKind : Merc.ASTKind
  TypeSignature : String

  InvocationDepth : Nat
  NumASTRoots : Nat
  NumArguments : Nat

  HasStringification : Bool
  HasTokenPasting : Bool
  HasAlignedArguments : Bool
  HasSameNameAsOtherDeclaration : Bool

  IsExpansionControlFlowStmt : Bool

  DoesBodyReferenceMacroDefinedAfterMacro : Bool
  DoesBodyReferenceDeclDeclaredAfterMacro : Bool
  DoesBodyContainDeclRefExpr : Bool
  DoesBodyEndWithCompoundStmt : Bool
  DoesSubexpressionExpandedFromBodyHaveLocalType : Bool
  DoesSubexpressionExpandedFromBodyHaveTypeDefinedAfterMacro : Bool

  DoesAnyArgumentHaveSideEffects : Bool
  DoesAnyArgumentContainDeclRefExpr : Bool

  IsHygienic : Bool
  IsICERepresentableByInt32 : Bool
  IsICERepresentableByInt16 : Bool
  IsDefinitionLocationValid : Bool
  IsInvocationLocationValid : Bool
  IsObjectLike : Bool
  IsInvokedInMacroArgument : Bool
  IsNamePresentInCPPConditional : Bool
  IsExpansionICE : Bool

  IsExpansionTypeNull : Bool
  IsExpansionTypeAnonymous : Bool
  IsExpansionTypeLocalType : Bool
  IsExpansionTypeDefinedAfterMacro : Bool
  IsExpansionTypeVoid : Bool
  IsExpansionTypeFunctionType : Bool

  IsAnyArgumentTypeNull : Bool
  IsAnyArgumentTypeAnonymous : Bool
  IsAnyArgumentTypeLocalType : Bool
  IsAnyArgumentTypeDefinedAfterMacro : Bool
  IsAnyArgumentTypeVoid : Bool
  IsAnyArgumentTypeFunctionType : Bool

  IsInvokedWhereModifiableValueRequired : Bool
  IsInvokedWhereAddressableValueRequired : Bool
  IsAnyArgumentExpandedWhereConstExprRequired : Bool
  IsInvokedWhereICERequired : Bool
  IsInvokedWhereConstantExpressionRequired : Bool

  IsAnyArgumentExpandedWhereModifiableValueRequired : Bool
  IsAnyArgumentExpandedWhereAddressableValueRequired : Bool
  IsAnyArgumentConditionallyEvaluated : Bool
  IsAnyArgumentNeverExpanded : Bool
  IsAnyArgumentNotAnExpression : Bool
  deriving DecidableEq

/-- `Invocation.DefinitionLocationFilename` from `macros.py`.  The source
unpacks `DefinitionLocation.split(':')` into exactly three parts and keeps
the first; we model this as the text before the first `:`. -/
def Invocation.DefinitionLocationFilename (i : Invocation) : String :=
  if !i.IsDefinitionLocationValid then i.DefinitionLocation
  else String.mk (i.DefinitionLocation.data.takeWhile (fun c => c ≠ ':'))

/-- `Invocation.IsFunctionLike` from `macros.py`. -/
def Invocation.IsFunctionLike (i : Invocation) : Bool :=
  !i.IsObjectLike

/-- `Invocation.IsTopLevelNonArgument` from `macros.py`. -/
def Invocation.IsTopLevelNonArgument (i : Invocation) : Bool :=
  i.InvocationDepth == 0 &&
  !i.IsInvokedInMacroArgument &&
  i.IsInvocationLocationValid &&
  i.IsDefinitionLocationValid

/-- `Invocation.IsAligned` from `macros.py` (value computed after its
`assert IsTopLevelNonArgument`; the assertion itself is modelled by the
`A`-variants below). -/
def Invocation.IsAligned (i : Invocation) : Bool :=
  i.IsTopLevelNonArgument && i.NumASTRoots == 1 && i.HasAlignedArguments

/-- `Invocation.HasSemanticData` from `macros.py`. -/
def Invocation.HasSemanticData (i : Invocation) : Bool :=
  i.IsTopLevelNonArgument &&
  !i.IsAnyArgumentNeverExpanded &&
  i.IsAligned &&
  !(i.ASTKind == ASTKind.Expr && i.IsExpansionTypeNull)

/-- `Invocation.CanBeTurnedIntoEnum` from `macros.py` (value after its
`assert HasSemanticData`). -/
def Invocation.CanBeTurnedIntoEnum (i : Invocation) : Bool :=
  i.IsExpansionICE

/-- `Invocation.IsExpansionConstantExpression` from `macros.py`. -/
def Invocation.IsExpansionConstantExpression (i : Invocation) : Bool :=
  i.ASTKind == ASTKind.Expr && !i.DoesBodyContainDeclRefExpr

/-- `Invocation.CanBeTurnedIntoFunction` from `macros.py` (value after its
`assert HasSemanticData`). -/
def Invocation.CanBeTurnedIntoFunction (i : Invocation) : Bool :=
  (i.ASTKind == ASTKind.Stmt || i.ASTKind == ASTKind.Expr) &&
  !i.IsInvokedWhereICERequired

/-- `Invocation.MustAlterDeclarationsToTransform` from `macros.py` (value
after its `assert HasSemanticData`). -/
def Invocation.MustAlterDeclarationsToTransform (i : Invocation) : Bool :=
  i.HasSameNameAsOtherDeclaration ||
  i.DoesBodyReferenceMacroDefinedAfterMacro ||
  i.DoesBodyReferenceDeclDeclaredAfterMacro ||
  i.DoesSubexpressionExpandedFromBodyHaveLocalType ||
  i.DoesSubexpressionExpandedFromBodyHaveTypeDefinedAfterMacro ||
  i.IsExpansionTypeAnonymous ||
  i.IsExpansionTypeLocalType ||
  i.IsExpansionTypeDefinedAfterMacro ||
  i.ASTKind == ASTKind.TypeLoc

/-- `Invocation.MustUseMetaprogrammingToTransform` from `macros.py`. -/
def Invocation.MustUseMetaprogrammingToTransform (i : Invocation) : Bool :=
  (i.HasStringification || i.HasTokenPasting) ||
  (i.HasSemanticData && i.IsFunctionLike && i.CanBeTurnedIntoFunction &&
    i.IsAnyArgumentNotAnExpression) ||
  i.IsExpansionControlFlowStmt ||
  i.IsNamePresentInCPPConditional

/-- `Invocation.IsExpression` from `macros.py`. -/
def Invocation.IsExpression (i : Invocation) : Bool :=
  i.ASTKind == ASTKind.Expr

/-- `Invocation.IsStatement` from `macros.py`. -/
def Invocation.IsStatement (i : Invocation) : Bool :=
  i.ASTKind == ASTKind.Stmt

/-- `Invocation.CanBeTurnedIntoEnumWithIntSize` from `macros.py`. -/
def Invocation.CanBeTurnedIntoEnumWithIntSize (i : Invocation) (sz : IntSize) : Bool :=
  i.CanBeTurnedIntoEnum &&
  (match sz with
   | IntSize.Int32 => i.IsICERepresentableByInt32
   | IntSize.Int16 => i.IsICERepresentableByInt16)

/-- `Invocation.IsCalledByName` from `macros.py`. -/
def Invocation.IsCalledByName (i : Invocation) : Bool :=
  i.IsAnyArgumentConditionallyEvaluated || i.DoesAnyArgumentHaveSideEffects

/-- `PreprocessorData` from `macros.py`.  The macro map `mm` is modelled as
a function returning the (ordered) invocation list of a macro; the two name
sets are modelled as lists queried by membership. -/
structure PreprocessorData where
  mm : Macro → List Invocation
  inspected_macro_names : List String
  local_includes : List String

/-- `Condition` dataclass from `predicates/interface_equivalent.py`. -/
structure Condition where
  check : Invocation → PreprocessorData → Bool
  result : IEResult

/-- Inner loop of `check_conditions`: the first failing condition for one
invocation, in list order. -/
def check_invocation (i : Invocation) (pd : PreprocessorData) :
    List Condition → Option IEResult
  | [] => none
  | c :: rest =>
    if c.check i pd then check_invocation i pd rest else some c.result

/-- `check_conditions` from `predicates/interface_equivalent.py`: iterate
over invocations, and within each over conditions; return the first
failure's result, else `VALID`. -/
def check_conditions (invocations : List Invocation) (pd : PreprocessorData)
    (conditions : List Condition) : IEResult :=
  match invocations with
  | [] => IEResult.VALID
  | i :: rest =>
    match check_invocation i pd conditions with
    | some r => r
    | none => check_conditions rest pd conditions

/-- `GLOBAL_CONDITIONS` from `predicates/interface_equivalent.py`. -/
def GLOBAL_CONDITIONS : List Condition := [
  ⟨fun i _ => i.HasSemanticData, IEResult.SYNTACTICALLY_INVALID_PROPERTY⟩,
  ⟨fun i _ => !i.DoesBodyEndWithCompoundStmt, IEResult.SYNTACTICALLY_INVALID_PROPERTY⟩,
  ⟨fun i _ => !i.IsInvokedWhereAddressableValueRequired &&
              !i.IsInvokedWhereModifiableValueRequired,
    IEResult.ADDRESSABLE_VALUE_REQUIRED⟩,
  ⟨fun i pd => !(pd.local_includes.contains i.DefinitionLocationFilename),
    IEResult.CAPTURES_ENVIRONMENT⟩,
  ⟨fun i _ => !i.MustAlterDeclarationsToTransform, IEResult.CAPTURES_ENVIRONMENT⟩,
  ⟨fun i _ => !i.MustUseMetaprogrammingToTransform, IEResult.USE_METAPROGRAMMING⟩,
  ⟨fun i pd => !(pd.inspected_macro_names.contains i.Name), IEResult.USE_METAPROGRAMMING⟩ ]

/-- `VARIABLE_CONDITIONS` from `predicates/interface_equivalent.py`. -/
def VARIABLE_CONDITIONS : List Condition := [
  ⟨fun i _ => !i.IsInvokedWhereConstantExpressionRequired,
    IEResult.INVOKED_WHERE_CONSTANT_EXPRESSION_REQUIRED⟩,
  ⟨fun i _ => i.IsExpansionConstantExpression,
    IEResult.EXPANSION_NOT_CONSTANT_EXPRESSION⟩ ]

/-- `ENUM_CONDITIONS` from `predicates/interface_equivalent.py`. -/
def ENUM_CONDITIONS : List Condition := [
  ⟨fun i _ => i.IsExpansionICE, IEResult.EXPANSION_NOT_ICE⟩ ]

/-- `NON_VOID_CONDITIONS` from `predicates/interface_equivalent.py`. -/
def NON_VOID_CONDITIONS : List Condition := [
  ⟨fun i _ => !i.IsInvokedWhereConstantExpressionRequired,
    IEResult.INVOKED_WHERE_CONSTANT_EXPRESSION_REQUIRED⟩,
  ⟨fun i _ => !i.IsExpansionTypeVoid, IEResult.EXPANSION_TYPE_VOID⟩,
  ⟨fun i _ => i.IsExpression, IEResult.INVALID_STATEMENT_KIND⟩ ]

/-- `VOID_CONDITIONS` from `predicates/interface_equivalent.py`. -/
def VOID_CONDITIONS : List Condition := [
  ⟨fun i _ => !i.IsInvokedWhereConstantExpressionRequired,
    IEResult.INVOKED_WHERE_CONSTANT_EXPRESSION_REQUIRED⟩,
  ⟨fun i _ => i.IsExpansionTypeVoid, IEResult.EXPANSION_TYPE_NON_VOID⟩,
  ⟨fun i _ => i.IsExpression || i.IsStatement, IEResult.INVALID_STATEMENT_KIND⟩ ]

/-- `ARGUMENT_CONDITIONS` from `predicates/interface_equivalent.py`. -/
def ARGUMENT_CONDITIONS : List Condition := [
  ⟨fun i _ => !i.IsCalledByName, IEResult.CALLED_BY_NAME⟩,
  ⟨fun i _ => !i.IsAnyArgumentExpandedWhereConstExprRequired,
    IEResult.ARGUMENT_INVOKED_WHERE_CONSTANT_EXPRESSION_REQUIRED⟩,
  ⟨fun i _ => !i.IsAnyArgumentTypeVoid, IEResult.ARGUMENT_TYPE_VOID⟩,
  ⟨fun i _ => !(i.IsAnyArgumentExpandedWhereModifiableValueRequired ||
                i.IsAnyArgumentExpandedWhereAddressableValueRequired),
    IEResult.ARGUMENT_ADDRESSABLE_VALUE_REQUIRED⟩,
  ⟨fun i _ => !i.IsAnyArgumentNotAnExpression, IEResult.ARGUMENT_TYPE_NOT_EXPRESSION⟩ ]

/-- Object-like tail of `ie_def` (`predicates/interface_equivalent.py`,
the `if m.IsObjectLike` branch). -/
def object_like_cascade (is_ : List Invocation) (pd : PreprocessorData)
    (cfg : TranslationConfig) : IEResult × Option TranslationTarget :=
  let variable_condition_check := check_conditions is_ pd VARIABLE_CONDITIONS
  let enum_condition_check := check_conditions is_ pd ENUM_CONDITIONS
  if variable_condition_check = IEResult.VALID then
    (IEResult.VALID, some TranslationTarget.GLOBAL_VARIABLE)
  else if enum_condition_check = IEResult.VALID then
    if is_.all (fun i => i.CanBeTurnedIntoEnumWithIntSize cfg.int_size) then
      (enum_condition_check, some TranslationTarget.ENUM)
    else
      (IEResult.INVOKED_WHERE_ICE_REQUIRED_AND_GREATER_THAN_INT_SIZE, none)
  else
    (enum_condition_check, none)

/-- Function-like tail of `ie_def` (`predicates/interface_equivalent.py`,
the `else` branch). -/
def function_like_cascade (is_ : List Invocation) (pd : PreprocessorData) :
    IEResult × Option TranslationTarget :=
  let argument_condition_check := check_conditions is_ pd ARGUMENT_CONDITIONS
  if argument_condition_check ≠ IEResult.VALID then
    (argument_condition_check, none)
  else
    let non_void_condition_check := check_conditions is_ pd NON_VOID_CONDITIONS
    let void_condition_check := check_conditions is_ pd VOID_CONDITIONS
    if non_void_condition_check = IEResult.VALID then
      (non_void_condition_check, some TranslationTarget.NON_VOID_FUNCTION)
    else if void_condition_check = IEResult.VALID then
      (void_condition_check, some TranslationTarget.VOID_FUNCTION)
    else
      (void_condition_check, none)

/-- `ie_def` from `predicates/interface_equivalent.py`: the classification
cascade.  (Its opening `assert all(IsTopLevelNonArgument)` is modelled by
`ie_defA` below.)  `len(set(sigs)) != 1` is modelled with `List.dedup`. -/
def ie_def (m : Macro) (pd : PreprocessorData) (translation_config : TranslationConfig) :
    IEResult × Option TranslationTarget :=
  let is_ := pd.mm m
  if !(is_.all (fun i => i.HasSemanticData)) then
    (IEResult.SYNTACTICALLY_INVALID_PROPERTY, none)
  else if is_.length = 0 then
    (IEResult.MACRO_NEVER_EXPANDED, none)
  else if (is_.map (fun i => i.TypeSignature)).dedup.length ≠ 1 then
    (IEResult.POLYMORPHIC, none)
  else if !m.IsDefinedAtGlobalScope then
    (IEResult.NON_GLOBAL_SCOPE, none)
  else
    let global_condition_check := check_conditions is_ pd GLOBAL_CONDITIONS
    if global_condition_check ≠ IEResult.VALID then
      (global_condition_check, none)
    else if m.IsObjectLike then
      object_like_cascade is_ pd translation_config
    else
      function_like_cascade is_ pd

/-- Python regex `\s` character class (whitespace as matched by `re`). -/
def pySpace (c : Char) : Bool :=
  c = ' ' || c = '\t' || c = '\n' || c = '\r' ||
  c = Char.ofNat 11 || c = Char.ofNat 12

/-- `re.match(r"void(?!\s*\*)", s)` succeeds: `s` starts with `void` and
the text after it is not whitespace followed by `*`. -/
def matchesVoidNotPtr (s : String) : Bool :=
  s.startsWith "void" &&
  !(match ((s.drop 4).toList.dropWhile pySpace) with
    | '*' :: _ => true
    | _ => false)

/-- Loop body of the legacy `generate_macro_translations` in
`analyze_transformations.py` for one macro: the translation-map value, with
the outer `none` modelling its `assert invocation is not None` failing on
an empty invocation set. -/
def legacy_macro_translation (m : Macro) (invocations : List Invocation)
    (cfg : TranslationConfig) : Option (Option String) :=
  match invocations with
  | [] => none
  | i0 :: _ =>
    if invocations.any (fun i => i.IsExpansionTypeFunctionType ||
        i.IsAnyArgumentTypeFunctionType) then
      some none
    else if m.IsFunctionLike then
      let returnStatement := if !(matchesVoidNotPtr i0.TypeSignature) then "return" else ""
      some (some ("static inline " ++ i0.TypeSignature ++ " \x7b " ++
        returnStatement ++ " " ++ m.Body ++ "; \x7d"))
    else
      let can_translate_to_enum :=
        (invocations.filter (fun i => i.IsInvokedWhereICERequired)).all
          (fun i => i.CanBeTurnedIntoEnumWithIntSize cfg.int_size)
      let invoked_where_ICE_required :=
        invocations.any (fun i => i.IsInvokedWhereICERequired)
      let invoked_where_constant_expression_required :=
        invocations.any (fun i => i.IsInvokedWhereConstantExpressionRequired)
      if invoked_where_ICE_required && can_translate_to_enum then
        some (some ("enum \x7b " ++ m.Name ++ " = " ++ m.Body ++ " \x7d;"))
      else if !invoked_where_constant_expression_required &&
          !invoked_where_ICE_required then
        some (some ("static const " ++ i0.TypeSignature ++ " = " ++ m.Body ++ ";"))
      else
        some none

/-! Assertion-aware variants.  Python `assert` statements inside the
invocation properties are modelled with `Option`: `none` marks an
assertion failure, and the plain definitions above give the values
computed when every assertion passes.  Properties whose bodies contain no
assertion keep their plain definitions. -/

/-- `Invocation.IsAligned` with its `assert IsTopLevelNonArgument`. -/
def Invocation.IsAlignedA (i : Invocation) : Option Bool :=
  if i.IsTopLevelNonArgument then some i.IsAligned else none

/-- `Invocation.HasSemanticData`; the list built by its `all([...])`
evaluates `IsAligned` — whose assertion can fire — before `all` inspects
any element. -/
def Invocation.HasSemanticDataA (i : Invocation) : Option Bool :=
  i.IsAlignedA.map (fun al =>
    i.IsTopLevelNonArgument && !i.IsAnyArgumentNeverExpanded && al &&
    !(i.ASTKind == ASTKind.Expr && i.IsExpansionTypeNull))

/-- `Invocation.CanBeTurnedIntoEnum` with its `assert HasSemanticData`
(evaluating the asserted property may itself fail). -/
def Invocation.CanBeTurnedIntoEnumA (i : Invocation) : Option Bool :=
  i.HasSemanticDataA.bind (fun h => if h then some i.IsExpansionICE else none)

/-- `Invocation.CanBeTurnedIntoFunction` with its `assert HasSemanticData`. -/
def Invocation.CanBeTurnedIntoFunctionA (i : Invocation) : Option Bool :=
  i.HasSemanticDataA.bind (fun h =>
    if h then some i.CanBeTurnedIntoFunction else none)

/-- `Invocation.MustAlterDeclarationsToTransform` with its
`assert HasSemanticData`. -/
def Invocation.MustAlterDeclarationsToTransformA (i : Invocation) : Option Bool :=
  i.HasSemanticDataA.bind (fun h =>
    if h then some i.MustAlterDeclarationsToTransform else none)

/-- `Invocation.MustUseMetaprogrammingToTransform`: Python `or`/`and`
short-circuiting determines which asserting properties are reached. -/
def Invocation.MustUseMetaprogrammingToTransformA (i : Invocation) : Option Bool :=
  if i.HasStringification || i.HasTokenPasting then some true
  else
    i.HasSemanticDataA.bind (fun h =>
      if h && i.IsFunctionLike then
        i.CanBeTurnedIntoFunctionA.map (fun f =>
          (f && i.IsAnyArgumentNotAnExpression) ||
          i.IsExpansionControlFlowStmt || i.IsNamePresentInCPPConditional)
      else
        some (i.IsExpansionControlFlowStmt || i.IsNamePresentInCPPConditional))

/-- `Invocation.CanBeTurnedIntoEnumWithIntSize`; its `and` evaluates
`CanBeTurnedIntoEnum` (and that property's assertion) first. -/
def Invocation.CanBeTurnedIntoEnumWithIntSizeA (i : Invocation) (sz : IntSize) :
    Option Bool :=
  i.CanBeTurnedIntoEnumA.map (fun c =>
    c && (match sz with
          | IntSize.Int32 => i.IsICERepresentableByInt32
          | IntSize.Int16 => i.IsICERepresentableByInt16))

/-- A condition whose check may fail an assertion. -/
structure ConditionA where
  check : Invocation → PreprocessorData → Option Bool
  result : IEResult

/-- `GLOBAL_CONDITIONS` with assertion-aware checks (rows 1, 5 and 6 read
asserting properties; the remaining rows read raw fields). -/
def GLOBAL_CONDITIONSA : List ConditionA := [
  ⟨fun i _ => i.HasSemanticDataA, IEResult.SYNTACTICALLY_INVALID_PROPERTY⟩,
  ⟨fun i _ => some (!i.DoesBodyEndWithCompoundStmt),
    IEResult.SYNTACTICALLY_INVALID_PROPERTY⟩,
  ⟨fun i _ => some (!i.IsInvokedWhereAddressableValueRequired &&
                    !i.IsInvokedWhereModifiableValueRequired),
    IEResult.ADDRESSABLE_VALUE_REQUIRED⟩,
  ⟨fun i pd => some (!(pd.local_includes.contains i.DefinitionLocationFilename)),
    IEResult.CAPTURES_ENVIRONMENT⟩,
  ⟨fun i _ => i.MustAlterDeclarationsToTransformA.map (fun b => !b),
    IEResult.CAPTURES_ENVIRONMENT⟩,
  ⟨fun i _ => i.MustUseMetaprogrammingToTransformA.map (fun b => !b),
    IEResult.USE_METAPROGRAMMING⟩,
  ⟨fun i pd => some (!(pd.inspected_macro_names.contains i.Name)),
    IEResult.USE_METAPROGRAMMING⟩ ]

/-- Assertion-aware inner condition loop. -/
def check_invocationA (i : Invocation) (pd : PreprocessorData) :
    List ConditionA → Option (Option IEResult)
  | [] => some none
  | c :: rest =>
    (c.check i pd).bind (fun b =>
      if b then check_invocationA i pd rest else some (some c.result))

/-- Assertion-aware `check_conditions`. -/
def check_conditionsA (invocations : List Invocation) (pd : PreprocessorData)
    (conditions : List ConditionA) : Option IEResult :=
  match invocations with
  | [] => some IEResult.VALID
  | i :: rest =>
    (check_invocationA i pd conditions).bind (fun r =>
      match r with
      | some r' => some r'
      | none => check_conditionsA rest pd conditions)

/-- Python list comprehension over assertion-aware values: elements are
evaluated left to right and a failure propagates immediately. -/
def mapMA : List Invocation → (Invocation → Option Bool) → Option (List Bool)
  | [], _ => some []
  | i :: rest, p => (p i).bind (fun b => (mapMA rest p).map (fun bs => b :: bs))

/-- `ie_def` with the source's assertions modelled: the opening
`assert all(IsTopLevelNonArgument)`, the eager `all([HasSemanticData])`
list, the assertion-carrying global-condition checks, and the eager
enum-width list `all([CanBeTurnedIntoEnumWithIntSize(...)])`.  The
variable, enum and kind-specific function conditions read no asserting
property and keep their plain checks. -/
def ie_defA (m : Macro) (pd : PreprocessorData)
    (translation_config : TranslationConfig) :
    Option (IEResult × Option TranslationTarget) :=
  let is_ := pd.mm m
  if !(is_.all (fun i => i.IsTopLevelNonArgument)) then none
  else
    (mapMA is_ (fun i => i.HasSemanticDataA)).bind (fun sems =>
      if !(sems.all (fun b => b)) then
        some (IEResult.SYNTACTICALLY_INVALID_PROPERTY, none)
      else if is_.length = 0 then
        some (IEResult.MACRO_NEVER_EXPANDED, none)
      else if (is_.map (fun i => i.TypeSignature)).dedup.length ≠ 1 then
        some (IEResult.POLYMORPHIC, none)
      else if !m.IsDefinedAtGlobalScope then
        some (IEResult.NON_GLOBAL_SCOPE, none)
      else
        (check_conditionsA is_ pd GLOBAL_CONDITIONSA).bind (fun g =>
          if g ≠ IEResult.VALID then some (g, none)
          else if m.IsObjectLike then
            if check_conditions is_ pd VARIABLE_CONDITIONS = IEResult.VALID then
              some (IEResult.VALID, some TranslationTarget.GLOBAL_VARIABLE)
            else if check_conditions is_ pd ENUM_CONDITIONS = IEResult.VALID then
              (mapMA is_ (fun i => i.CanBeTurnedIntoEnumWithIntSizeA
                  translation_config.int_size)).bind (fun ws =>
                if ws.all (fun b => b) then
                  some (check_conditions is_ pd ENUM_CONDITIONS,
                    some TranslationTarget.ENUM)
                else
                  some (IEResult.INVOKED_WHERE_ICE_REQUIRED_AND_GREATER_THAN_INT_SIZE,
                    none))
            else
              some (check_conditions is_ pd ENUM_CONDITIONS, none)
          else
            some (function_like_cascade is_ pd)))

/-! Concrete preprocessor-data values used to evaluate the engine. -/

/-- The `Int32` translation configuration (the source default). -/
def cfg32 : TranslationConfig := ⟨IntSize.Int32⟩

/-- Preprocessor data mapping every macro to the invocation list `l`,
with empty inspected-name and local-include sets. -/
def pdOf (l : List Invocation) : PreprocessorData :=
  ⟨fun _ => l, [], []⟩

/-- An object-like macro defined at global scope. -/
def mObj : Macro :=
  { Name := "M", IsObjectLike := true, IsDefinitionLocationValid := true,
    IsDefinedAtGlobalScope := true, Body := "5",
    DefinitionLocation := "a.c:1:1", EndDefinitionLocation := "a.c:1:11" }

/-- A function-like macro defined at global scope. -/
def mFn : Macro :=
  { Name := "F", IsObjectLike := false, IsDefinitionLocationValid := true,
    IsDefinedAtGlobalScope := true, Body := "g(x)",
    DefinitionLocation := "a.c:2:1", EndDefinitionLocation := "a.c:2:16" }

/-- A top-level non-argument object-like invocation whose expansion is an
integral constant expression; it passes every classification condition. -/
def baseInv : Invocation :=
  { Name := "M", DefinitionLocation := "a.c:1:1", InvocationLocation := "a.c:5:1",
    ASTKind := ASTKind.Expr, TypeSignature := "int x",
    InvocationDepth := 0, NumASTRoots := 1, NumArguments := 0,
    HasStringification := false, HasTokenPasting := false,
    HasAlignedArguments := true, HasSameNameAsOtherDeclaration := false,
    IsExpansionControlFlowStmt := false,
    DoesBodyReferenceMacroDefinedAfterMacro := false,
    DoesBodyReferenceDeclDeclaredAfterMacro := false,
    DoesBodyContainDeclRefExpr := false,
    DoesBodyEndWithCompoundStmt := false,
    DoesSubexpressionExpandedFromBodyHaveLocalType := false,
    DoesSubexpressionExpandedFromBodyHaveTypeDefinedAfterMacro := false,
    DoesAnyArgumentHaveSideEffects := false,
    DoesAnyArgumentContainDeclRefExpr := false,
    IsHygienic := true, IsICERepresentableByInt32 := true,
    IsICERepresentableByInt16 := true, IsDefinitionLocationValid := true,
    IsInvocationLocationValid := true, IsObjectLike := true,
    IsInvokedInMacroArgument := false, IsNamePresentInCPPConditional := false,
    IsExpansionICE := true,
    IsExpansionTypeNull := false, IsExpansionTypeAnonymous := false,
    IsExpansionTypeLocalType := false, IsExpansionTypeDefinedAfterMacro := false,
    IsExpansionTypeVoid := false, IsExpansionTypeFunctionType := false,
    IsAnyArgumentTypeNull := false, IsAnyArgumentTypeAnonymous := false,
    IsAnyArgumentTypeLocalType := false, IsAnyArgumentTypeDefinedAfterMacro := false,
    IsAnyArgumentTypeVoid := false, IsAnyArgumentTypeFunctionType := false,
    IsInvokedWhereModifiableValueRequired := false,
    IsInvokedWhereAddressableValueRequired := false,
    IsAnyArgumentExpandedWhereConstExprRequired := false,
    IsInvokedWhereICERequired := false,
    IsInvokedWhereConstantExpressionRequired := false,
    IsAnyArgumentExpandedWhereModifiableValueRequired := false,
    IsAnyArgumentExpandedWhereAddressableValueRequired := false,
    IsAnyArgumentConditionallyEvaluated := false,
    IsAnyArgumentNeverExpanded := false,
    IsAnyArgumentNotAnExpression := false }

/-- Invocation required to be a constant expression whose ICE value fits
no configured int width: exercises the enum width check. -/
def iWide : Invocation :=
  { baseInv with IsInvokedWhereConstantExpressionRequired := true,
                 IsICERepresentableByInt32 := false,
                 IsICERepresentableByInt16 := false }

/-- Invocation required to be a constant expression whose ICE value fits:
translatable to an enum but not to a global variable. -/
def iEnumOk : Invocation :=
  { baseInv with IsInvokedWhereConstantExpressionRequired := true }

/-- Invocation whose definition file is the locally included header `a.h`. -/
def iLocalHdr : Invocation :=
  { baseInv with DefinitionLocation := "a.h:1:1" }

/-- Preprocessor data whose local-include set contains `a.h`. -/
def pdLocalHdr : PreprocessorData :=
  ⟨fun _ => [iLocalHdr], [], ["a.h"]⟩

/-- Function-like invocation with an argument expanded where a constant
expression is required (and no called-by-name argument). -/
def iArgConst : Invocation :=
  { baseInv with IsObjectLike := false,
                 IsAnyArgumentExpandedWhereConstExprRequired := true }

/-- Function-like invocation with a side-effecting argument (called by
name). -/
def iSideEffect : Invocation :=
  { baseInv with IsObjectLike := false,
                 DoesAnyArgumentHaveSideEffects := true }

/-- Invocation invoked where an addressable lvalue is required. -/
def iAddr : Invocation :=
  { baseInv with IsInvokedWhereAddressableValueRequired := true }

/-- Invocation whose body ends with a compound statement. -/
def iCompound : Invocation :=
  { baseInv with DoesBodyEndWithCompoundStmt := true }

/-- Function-like invocation with a void expansion in statement position. -/
def iVoidStmt : Invocation :=
  { baseInv with IsObjectLike := false, IsExpansionTypeVoid := true,
                 TypeSignature := "void f(int x)" }

/-- Function-like macro with body `f(x)`. -/
def mLog : Macro :=
  { Name := "LOG", IsObjectLike := false, IsDefinitionLocationValid := true,
    IsDefinedAtGlobalScope := true, Body := "f(x)",
    DefinitionLocation := "a.c:3:1", EndDefinitionLocation := "a.c:3:20" }

/-! Basic lemmas about the condition-checking loop. -/

theorem check_invocation_eq_none_iff (i : Invocation) (pd : PreprocessorData)
    (cs : List Condition) :
    check_invocation i pd cs = none ↔ ∀ c ∈ cs, c.check i pd = true := by
  induction cs with
  | nil => simp [check_invocation]
  | cons c rest ih =>
    by_cases h : c.check i pd = true
    · simp [check_invocation, h, ih]
    · simp [check_invocation, h]

theorem check_invocation_eq_some {i : Invocation} {pd : PreprocessorData}
    {cs : List Condition} {r : IEResult}
    (h : check_invocation i pd cs = some r) :
    ∃ c ∈ cs, c.check i pd = false ∧ c.result = r := by
  induction cs with
  | nil => simp [check_invocation] at h
  | cons c rest ih =>
    by_cases hc : c.check i pd = true
    · simp only [check_invocation, if_pos hc] at h
      rcases ih h with ⟨c', h1, h2⟩
      exact ⟨c', List.mem_cons_of_mem _ h1, h2⟩
    · simp only [check_invocation, if_neg hc, Option.some.injEq] at h
      have hc' : c.check i pd = false := by
        revert hc; cases c.check i pd <;> simp
      exact ⟨c, List.mem_cons_self _ _, hc', h⟩

theorem check_conditions_eq_valid_iff (l : List Invocation) (pd : PreprocessorData)
    (cs : List Condition) (hcs : ∀ c ∈ cs, c.result ≠ IEResult.VALID) :
    check_conditions l pd cs = IEResult.VALID ↔
      ∀ i ∈ l, ∀ c ∈ cs, c.check i pd = true := by
  induction l with
  | nil => simp [check_conditions]
  | cons i rest ih =>
    cases hci : check_invocation i pd cs with
    | none =>
      have hall := (check_invocation_eq_none_iff i pd cs).mp hci
      simp only [check_conditions, hci]
      rw [ih]
      constructor
      · intro h j hj
        rcases List.mem_cons.mp hj with rfl | hj'
        · exact hall
        · exact h j hj'
      · intro h j hj
        exact h j (List.mem_cons_of_mem _ hj)
    | some r =>
      obtain ⟨c, hc, hfail, hres⟩ := check_invocation_eq_some hci
      simp only [check_conditions, hci]
      constructor
      · intro hr
        exact absurd (hres.trans hr) (hcs c hc)
      · intro h
        have := h i (List.mem_cons_self _ _) c hc
        rw [this] at hfail
        cases hfail

theorem check_conditions_ne_valid_mem {l : List Invocation} {pd : PreprocessorData}
    {cs : List Condition} {r : IEResult}
    (h : check_conditions l pd cs = r) (hr : r ≠ IEResult.VALID) :
    ∃ i ∈ l, ∃ c ∈ cs, c.check i pd = false ∧ c.result = r := by
  induction l with
  | nil =>
    simp only [check_conditions] at h
    exact absurd h.symm hr
  | cons i rest ih =>
    cases hci : check_invocation i pd cs with
    | some r' =>
      simp only [check_conditions, hci] at h
      subst h
      obtain ⟨c, hc, h1, h2⟩ := check_invocation_eq_some hci
      exact ⟨i, List.mem_cons_self _ _, c, hc, h1, h2⟩
    | none =>
      simp only [check_conditions, hci] at h
      obtain ⟨j, hj, hrest⟩ := ih h
      exact ⟨j, List.mem_cons_of_mem _ hj, hrest⟩

/-! The concrete condition lists never carry `VALID` as a failure result. -/

theorem GLOBAL_CONDITIONS_result_ne_valid :
    ∀ c ∈ GLOBAL_CONDITIONS, c.result ≠ IEResult.VALID := by
  intro c hc
  simp only [GLOBAL_CONDITIONS, List.mem_cons, List.not_mem_nil, or_false] at hc
  rcases hc with rfl | rfl | rfl | rfl | rfl | rfl | rfl <;> simp

theorem VARIABLE_CONDITIONS_result_ne_valid :
    ∀ c ∈ VARIABLE_CONDITIONS, c.result ≠ IEResult.VALID := by
  intro c hc
  simp only [VARIABLE_CONDITIONS, List.mem_cons, List.not_mem_nil, or_false] at hc
  rcases hc with rfl | rfl <;> simp

theorem ENUM_CONDITIONS_result_ne_valid :
    ∀ c ∈ ENUM_CONDITIONS, c.result ≠ IEResult.VALID := by
  intro c hc
  simp only [ENUM_CONDITIONS, List.mem_cons, List.not_mem_nil, or_false] at hc
  rcases hc with rfl
  simp

theorem NON_VOID_CONDITIONS_result_ne_valid :
    ∀ c ∈ NON_VOID_CONDITIONS, c.result ≠ IEResult.VALID := by
  intro c hc
  simp only [NON_VOID_CONDITIONS, List.mem_cons, List.not_mem_nil, or_false] at hc
  rcases hc with rfl | rfl | rfl <;> simp

theorem VOID_CONDITIONS_result_ne_valid :
    ∀ c ∈ VOID_CONDITIONS, c.result ≠ IEResult.VALID := by
  intro c hc
  simp only [VOID_CONDITIONS, List.mem_cons, List.not_mem_nil, or_false] at hc
  rcases hc with rfl | rfl | rfl <;> simp

theorem ARGUMENT_CONDITIONS_result_ne_valid :
    ∀ c ∈ ARGUMENT_CONDITIONS, c.result ≠ IEResult.VALID := by
  intro c hc
  simp only [ARGUMENT_CONDITIONS, List.mem_cons, List.not_mem_nil, or_false] at hc
  rcases hc with rfl | rfl | rfl | rfl | rfl <;> simp

/-! Stage lemmas: each branch of the `ie_def` cascade in isolation. -/

theorem ie_def_stage_sem {m : Macro} {pd : PreprocessorData} {cfg : TranslationConfig}
    (h : (pd.mm m).all (fun i => i.HasSemanticData) = false) :
    ie_def m pd cfg = (IEResult.SYNTACTICALLY_INVALID_PROPERTY, none) := by
  simp [ie_def, h]

theorem ie_def_stage_empty {m : Macro} {pd : PreprocessorData} {cfg : TranslationConfig}
    (h1 : (pd.mm m).all (fun i => i.HasSemanticData) = true)
    (h2 : pd.mm m = []) :
    ie_def m pd cfg = (IEResult.MACRO_NEVER_EXPANDED, none) := by
  simp [ie_def, h1, h2]

theorem ie_def_stage_poly {m : Macro} {pd : PreprocessorData} {cfg : TranslationConfig}
    (h1 : (pd.mm m).all (fun i => i.HasSemanticData) = true)
    (h2 : pd.mm m ≠ [])
    (h3 : ((pd.mm m).map (fun i => i.TypeSignature)).dedup.length ≠ 1) :
    ie_def m pd cfg = (IEResult.POLYMORPHIC, none) := by
  simp [ie_def, h1, List.length_eq_zero, h2, h3]

theorem ie_def_stage_scope {m : Macro} {pd : PreprocessorData} {cfg : TranslationConfig}
    (h1 : (pd.mm m).all (fun i => i.HasSemanticData) = true)
    (h2 : pd.mm m ≠ [])
    (h3 : ((pd.mm m).map (fun i => i.TypeSignature)).dedup.length = 1)
    (h4 : m.IsDefinedAtGlobalScope = false) :
    ie_def m pd cfg = (IEResult.NON_GLOBAL_SCOPE, none) := by
  simp [ie_def, h1, List.length_eq_zero, h2, h3, h4]

theorem ie_def_stage_global {m : Macro} {pd : PreprocessorData} {cfg : TranslationConfig}
    (h1 : (pd.mm m).all (fun i => i.HasSemanticData) = true)
    (h2 : pd.mm m ≠ [])
    (h3 : ((pd.mm m).map (fun i => i.TypeSignature)).dedup.length = 1)
    (h4 : m.IsDefinedAtGlobalScope = true)
    (h5 : check_conditions (pd.mm m) pd GLOBAL_CONDITIONS ≠ IEResult.VALID) :
    ie_def m pd cfg = (check_conditions (pd.mm m) pd GLOBAL_CONDITIONS, none) := by
  simp [ie_def, h1, List.length_eq_zero, h2, h3, h4, h5]

theorem ie_def_stage_kind {m : Macro} {pd : PreprocessorData} {cfg : TranslationConfig}
    (h1 : (pd.mm m).all (fun i => i.HasSemanticData) = true)
    (h2 : pd.mm m ≠ [])
    (h3 : ((pd.mm m).map (fun i => i.TypeSignature)).dedup.length = 1)
    (h4 : m.IsDefinedAtGlobalScope = true)
    (h5 : check_conditions (pd.mm m) pd GLOBAL_CONDITIONS = IEResult.VALID) :
    ie_def m pd cfg =
      (if m.IsObjectLike then object_like_cascade (pd.mm m) pd cfg
       else function_like_cascade (pd.mm m) pd) := by
  simp [ie_def, h1, List.length_eq_zero, h2, h3, h4, h5]

theorem object_like_cascade_var {l : List Invocation} {pd : PreprocessorData}
    {cfg : TranslationConfig}
    (hv : check_conditions l pd VARIABLE_CONDITIONS = IEResult.VALID) :
    object_like_cascade l pd cfg =
      (IEResult.VALID, some TranslationTarget.GLOBAL_VARIABLE) := by
  simp [object_like_cascade, hv]

theorem object_like_cascade_enum {l : List Invocation} {pd : PreprocessorData}
    {cfg : TranslationConfig}
    (hv : check_conditions l pd VARIABLE_CONDITIONS ≠ IEResult.VALID)
    (he : check_conditions l pd ENUM_CONDITIONS = IEResult.VALID)
    (hw : l.all (fun i => i.CanBeTurnedIntoEnumWithIntSize cfg.int_size) = true) :
    object_like_cascade l pd cfg = (IEResult.VALID, some TranslationTarget.ENUM) := by
  simp [object_like_cascade, hv, he, hw]

theorem object_like_cascade_wide {l : List Invocation} {pd : PreprocessorData}
    {cfg : TranslationConfig}
    (hv : check_conditions l pd VARIABLE_CONDITIONS ≠ IEResult.VALID)
    (he : check_conditions l pd ENUM_CONDITIONS = IEResult.VALID)
    (hw : l.all (fun i => i.CanBeTurnedIntoEnumWithIntSize cfg.int_size) = false) :
    object_like_cascade l pd cfg =
      (IEResult.INVOKED_WHERE_ICE_REQUIRED_AND_GREATER_THAN_INT_SIZE, none) := by
  simp [object_like_cascade, hv, he, hw]

theorem object_like_cascade_not_enum {l : List Invocation} {pd : PreprocessorData}
    {cfg : TranslationConfig}
    (hv : check_conditions l pd VARIABLE_CONDITIONS ≠ IEResult.VALID)
    (he : check_conditions l pd ENUM_CONDITIONS ≠ IEResult.VALID) :
    object_like_cascade l pd cfg = (check_conditions l pd ENUM_CONDITIONS, none) := by
  simp [object_like_cascade, hv, he]

theorem function_like_cascade_arg {l : List Invocation} {pd : PreprocessorData}
    (ha : check_conditions l pd ARGUMENT_CONDITIONS ≠ IEResult.VALID) :
    function_like_cascade l pd = (check_conditions l pd ARGUMENT_CONDITIONS, none) := by
  simp [function_like_cascade, ha]

theorem function_like_cascade_non_void {l : List Invocation} {pd : PreprocessorData}
    (ha : check_conditions l pd ARGUMENT_CONDITIONS = IEResult.VALID)
    (hn : check_conditions l pd NON_VOID_CONDITIONS = IEResult.VALID) :
    function_like_cascade l pd =
      (IEResult.VALID, some TranslationTarget.NON_VOID_FUNCTION) := by
  simp [function_like_cascade, ha, hn]

theorem function_like_cascade_void {l : List Invocation} {pd : PreprocessorData}
    (ha : check_conditions l pd ARGUMENT_CONDITIONS = IEResult.VALID)
    (hn : check_conditions l pd NON_VOID_CONDITIONS ≠ IEResult.VALID)
    (hv : check_conditions l pd VOID_CONDITIONS = IEResult.VALID) :
    function_like_cascade l pd =
      (IEResult.VALID, some TranslationTarget.VOID_FUNCTION) := by
  simp [function_like_cascade, ha, hn, hv]

theorem function_like_cascade_neither {l : List Invocation} {pd : PreprocessorData}
    (ha : check_conditions l pd ARGUMENT_CONDITIONS = IEResult.VALID)
    (hn : check_conditions l pd NON_VOID_CONDITIONS ≠ IEResult.VALID)
    (hv : check_conditions l pd VOID_CONDITIONS ≠ IEResult.VALID) :
    function_like_cascade l pd = (check_conditions l pd VOID_CONDITIONS, none) := by
  simp [function_like_cascade, ha, hn, hv]

/-! Outcome characterizations assembled from the stage lemmas. -/

theorem object_like_cascade_fst_valid_iff (l : List Invocation)
    (pd : PreprocessorData) (cfg : TranslationConfig) :
    (object_like_cascade l pd cfg).fst = IEResult.VALID ↔
      (check_conditions l pd VARIABLE_CONDITIONS = IEResult.VALID ∨
       (check_conditions l pd ENUM_CONDITIONS = IEResult.VALID ∧
        l.all (fun i => i.CanBeTurnedIntoEnumWithIntSize cfg.int_size) = true)) := by
  by_cases hv : check_conditions l pd VARIABLE_CONDITIONS = IEResult.VALID
  · rw [object_like_cascade_var hv]; simp [hv]
  · by_cases he : check_conditions l pd ENUM_CONDITIONS = IEResult.VALID
    · cases hw : l.all (fun i => i.CanBeTurnedIntoEnumWithIntSize cfg.int_size) with
      | true => rw [object_like_cascade_enum hv he hw]; simp [hv, he, hw]
      | false => rw [object_like_cascade_wide hv he hw]; simp [hv, he, hw]
    · rw [object_like_cascade_not_enum hv he]; simp [hv, he]

theorem function_like_cascade_fst_valid_iff (l : List Invocation)
    (pd : PreprocessorData) :
    (function_like_cascade l pd).fst = IEResult.VALID ↔
      (check_conditions l pd ARGUMENT_CONDITIONS = IEResult.VALID ∧
       (check_conditions l pd NON_VOID_CONDITIONS = IEResult.VALID ∨
        check_conditions l pd VOID_CONDITIONS = IEResult.VALID)) := by
  by_cases ha : check_conditions l pd ARGUMENT_CONDITIONS = IEResult.VALID
  · by_cases hn : check_conditions l pd NON_VOID_CONDITIONS = IEResult.VALID
    · rw [function_like_cascade_non_void ha hn]; simp [ha, hn]
    · by_cases hv : check_conditions l pd VOID_CONDITIONS = IEResult.VALID
      · rw [function_like_cascade_void ha hn hv]; simp [ha, hn, hv]
      · rw [function_like_cascade_neither ha hn hv]; simp [ha, hn, hv]
  · rw [function_like_cascade_arg ha]; simp [ha]

theorem object_like_cascade_snd_char (l : List Invocation)
    (pd : PreprocessorData) (cfg : TranslationConfig) :
    (object_like_cascade l pd cfg).snd =
      (if (object_like_cascade l pd cfg).fst = IEResult.VALID then
        some (if check_conditions l pd VARIABLE_CONDITIONS = IEResult.VALID
              then TranslationTarget.GLOBAL_VARIABLE else TranslationTarget.ENUM)
       else none) := by
  by_cases hv : check_conditions l pd VARIABLE_CONDITIONS = IEResult.VALID
  · rw [object_like_cascade_var hv]; simp [hv]
  · by_cases he : check_conditions l pd ENUM_CONDITIONS = IEResult.VALID
    · cases hw : l.all (fun i => i.CanBeTurnedIntoEnumWithIntSize cfg.int_size) with
      | true => rw [object_like_cascade_enum hv he hw]; simp [hv]
      | false => rw [object_like_cascade_wide hv he hw]; simp
    · rw [object_like_cascade_not_enum hv he]; simp [he]

theorem function_like_cascade_snd_char (l : List Invocation)
    (pd : PreprocessorData) :
    (function_like_cascade l pd).snd =
      (if (function_like_cascade l pd).fst = IEResult.VALID then
        some (if check_conditions l pd NON_VOID_CONDITIONS = IEResult.VALID
              then TranslationTarget.NON_VOID_FUNCTION
              else TranslationTarget.VOID_FUNCTION)
       else none) := by
  by_cases ha : check_conditions l pd ARGUMENT_CONDITIONS = IEResult.VALID
  · by_cases hn : check_conditions l pd NON_VOID_CONDITIONS = IEResult.VALID
    · rw [function_like_cascade_non_void ha hn]; simp [hn]
    · by_cases hv : check_conditions l pd VOID_CONDITIONS = IEResult.VALID
      · rw [function_like_cascade_void ha hn hv]; simp [hn]
      · rw [function_like_cascade_neither ha hn hv]; simp [hv]
  · rw [function_like_cascade_arg ha]; simp [ha]

theorem ie_def_fst_valid_iff (m : Macro) (pd : PreprocessorData)
    (cfg : TranslationConfig) :
    (ie_def m pd cfg).fst = IEResult.VALID ↔
      ((pd.mm m).all (fun i => i.HasSemanticData) = true ∧
       pd.mm m ≠ [] ∧
       ((pd.mm m).map (fun i => i.TypeSignature)).dedup.length = 1 ∧
       m.IsDefinedAtGlobalScope = true ∧
       check_conditions (pd.mm m) pd GLOBAL_CONDITIONS = IEResult.VALID ∧
       (if m.IsObjectLike then
          (check_conditions (pd.mm m) pd VARIABLE_CONDITIONS = IEResult.VALID ∨
           (check_conditions (pd.mm m) pd ENUM_CONDITIONS = IEResult.VALID ∧
            (pd.mm m).all
              (fun i => i.CanBeTurnedIntoEnumWithIntSize cfg.int_size) = true))
        else
          (check_conditions (pd.mm m) pd ARGUMENT_CONDITIONS = IEResult.VALID ∧
           (check_conditions (pd.mm m) pd NON_VOID_CONDITIONS = IEResult.VALID ∨
            check_conditions (pd.mm m) pd VOID_CONDITIONS = IEResult.VALID)))) := by
  cases h1 : (pd.mm m).all (fun i => i.HasSemanticData) with
  | false => rw [ie_def_stage_sem h1]; simp [h1]
  | true =>
    by_cases h2 : pd.mm m = []
    · rw [ie_def_stage_empty h1 h2]; simp [h2]
    · by_cases h3 : ((pd.mm m).map (fun i => i.TypeSignature)).dedup.length = 1
      · cases h4 : m.IsDefinedAtGlobalScope with
        | false => rw [ie_def_stage_scope h1 h2 h3 h4]; simp [h4]
        | true =>
          by_cases h5 : check_conditions (pd.mm m) pd GLOBAL_CONDITIONS = IEResult.VALID
          · rw [ie_def_stage_kind h1 h2 h3 h4 h5]
            cases h6 : m.IsObjectLike with
            | true =>
              simp only [h6, if_true]
              rw [object_like_cascade_fst_valid_iff]
              simp [h1, h2, h3, h4, h5]
            | false =>
              simp only [h6, Bool.false_eq_true, if_false]
              rw [function_like_cascade_fst_valid_iff]
              simp [h1, h2, h3, h4, h5, h6]
          · rw [ie_def_stage_global h1 h2 h3 h4 h5]; simp [h5]
      · rw [ie_def_stage_poly h1 h2 h3]; simp [h3]

theorem ie_def_snd_char (m : Macro) (pd : PreprocessorData)
    (cfg : TranslationConfig) :
    (ie_def m pd cfg).snd =
      (if (ie_def m pd cfg).fst = IEResult.VALID then
        some (if m.IsObjectLike then
            (if check_conditions (pd.mm m) pd VARIABLE_CONDITIONS = IEResult.VALID
             then TranslationTarget.GLOBAL_VARIABLE else TranslationTarget.ENUM)
          else
            (if check_conditions (pd.mm m) pd NON_VOID_CONDITIONS = IEResult.VALID
             then TranslationTarget.NON_VOID_FUNCTION
             else TranslationTarget.VOID_FUNCTION))
       else none) := by
  cases h1 : (pd.mm m).all (fun i => i.HasSemanticData) with
  | false => rw [ie_def_stage_sem h1]; simp
  | true =>
    by_cases h2 : pd.mm m = []
    · rw [ie_def_stage_empty h1 h2]; simp
    · by_cases h3 : ((pd.mm m).map (fun i => i.TypeSignature)).dedup.length = 1
      · cases h4 : m.IsDefinedAtGlobalScope with
        | false => rw [ie_def_stage_scope h1 h2 h3 h4]; simp
        | true =>
          by_cases h5 : check_conditions (pd.mm m) pd GLOBAL_CONDITIONS = IEResult.VALID
          · rw [ie_def_stage_kind h1 h2 h3 h4 h5]
            cases h6 : m.IsObjectLike with
            | true =>
              simp only [h6, if_true]
              exact object_like_cascade_snd_char (pd.mm m) pd cfg
            | false =>
              simp only [h6, Bool.false_eq_true, if_false]
              exact function_like_cascade_snd_char (pd.mm m) pd
          · rw [ie_def_stage_global h1 h2 h3 h4 h5]; simp [h5]
      · rw [ie_def_stage_poly h1 h2 h3]; simp

theorem ie_def_valid_nonempty {m : Macro} {pd : PreprocessorData}
    {cfg : TranslationConfig}
    (h : (ie_def m pd cfg).fst = IEResult.VALID) : pd.mm m ≠ [] :=
  ((ie_def_fst_valid_iff m pd cfg).mp h).2.1

/-! Permutation invariance machinery. -/

theorem perm_all_eq {α : Type} {l l' : List α} (h : l.Perm l') (p : α → Bool) :
    l.all p = l'.all p := by
  induction h with
  | nil => rfl
  | cons x _ ih => simp [List.all_cons, ih]
  | swap x y l => simp [List.all_cons, Bool.and_left_comm]
  | trans _ _ ih1 ih2 => exact ih1.trans ih2

theorem check_conditions_valid_congr {l l' : List Invocation}
    {pd pd' : PreprocessorData} {cs : List Condition}
    (hperm : l.Perm l')
    (hcheck : ∀ c ∈ cs, ∀ i, c.check i pd = c.check i pd')
    (hres : ∀ c ∈ cs, c.result ≠ IEResult.VALID) :
    (check_conditions l pd cs = IEResult.VALID ↔
     check_conditions l' pd' cs = IEResult.VALID) := by
  rw [check_conditions_eq_valid_iff _ _ _ hres,
    check_conditions_eq_valid_iff _ _ _ hres]
  constructor
  · intro h i hi c hc
    rw [← hcheck c hc i]
    exact h i (hperm.mem_iff.mpr hi) c hc
  · intro h i hi c hc
    rw [hcheck c hc i]
    exact h i (hperm.mem_iff.mp hi) c hc

theorem GLOBAL_CONDITIONS_check_congr {pd pd' : PreprocessorData}
    (hin : pd.inspected_macro_names = pd'.inspected_macro_names)
    (hlo : pd.local_includes = pd'.local_includes) :
    ∀ c ∈ GLOBAL_CONDITIONS, ∀ i, c.check i pd = c.check i pd' := by
  intro c hc i
  simp only [GLOBAL_CONDITIONS, List.mem_cons, List.not_mem_nil, or_false] at hc
  rcases hc with rfl | rfl | rfl | rfl | rfl | rfl | rfl <;> simp [hin, hlo]

theorem VARIABLE_CONDITIONS_check_irrel (pd pd' : PreprocessorData) :
    ∀ c ∈ VARIABLE_CONDITIONS, ∀ i, c.check i pd = c.check i pd' := by
  intro c hc i
  simp only [VARIABLE_CONDITIONS, List.mem_cons, List.not_mem_nil, or_false] at hc
  rcases hc with rfl | rfl <;> rfl

theorem ENUM_CONDITIONS_check_irrel (pd pd' : PreprocessorData) :
    ∀ c ∈ ENUM_CONDITIONS, ∀ i, c.check i pd = c.check i pd' := by
  intro c hc i
  simp only [ENUM_CONDITIONS, List.mem_cons, List.not_mem_nil, or_false] at hc
  rcases hc with rfl
  rfl

theorem ARGUMENT_CONDITIONS_check_irrel (pd pd' : PreprocessorData) :
    ∀ c ∈ ARGUMENT_CONDITIONS, ∀ i, c.check i pd = c.check i pd' := by
  intro c hc i
  simp only [ARGUMENT_CONDITIONS, List.mem_cons, List.not_mem_nil, or_false] at hc
  rcases hc with rfl | rfl | rfl | rfl | rfl <;> rfl

theorem NON_VOID_CONDITIONS_check_irrel (pd pd' : PreprocessorData) :
    ∀ c ∈ NON_VOID_CONDITIONS, ∀ i, c.check i pd = c.check i pd' := by
  intro c hc i
  simp only [NON_VOID_CONDITIONS, List.mem_cons, List.not_mem_nil, or_false] at hc
  rcases hc with rfl | rfl | rfl <;> rfl

theorem VOID_CONDITIONS_check_irrel (pd pd' : PreprocessorData) :
    ∀ c ∈ VOID_CONDITIONS, ∀ i, c.check i pd = c.check i pd' := by
  intro c hc i
  simp only [VOID_CONDITIONS, List.mem_cons, List.not_mem_nil, or_false] at hc
  rcases hc with rfl | rfl | rfl <;> rfl

/-! Claim theorems. -/

/-- C1: classification returns exactly one outcome — a translation target
exactly when the result is `VALID` — and the reported reason is the first
failing condition in the documented cascade order: has-semantic-data
(`SYNTACTICALLY_INVALID_PROPERTY`), then non-empty invocation set
(`MACRO_NEVER_EXPANDED`), then single shared type signature
(`POLYMORPHIC`), then defined-at-global-scope (`NON_GLOBAL_SCOPE`), then
the global conditions, then the kind-specific cascade. -/
theorem claim_C1_one_outcome_cascade_order (m : Macro) (pd : PreprocessorData)
    (cfg : TranslationConfig) :
    ((ie_def m pd cfg).fst = IEResult.VALID ↔ (ie_def m pd cfg).snd ≠ none) ∧
    ((pd.mm m).all (fun i => i.HasSemanticData) = false →
      ie_def m pd cfg = (IEResult.SYNTACTICALLY_INVALID_PROPERTY, none)) ∧
    ((pd.mm m).all (fun i => i.HasSemanticData) = true → pd.mm m = [] →
      ie_def m pd cfg = (IEResult.MACRO_NEVER_EXPANDED, none)) ∧
    ((pd.mm m).all (fun i => i.HasSemanticData) = true → pd.mm m ≠ [] →
      ((pd.mm m).map (fun i => i.TypeSignature)).dedup.length ≠ 1 →
      ie_def m pd cfg = (IEResult.POLYMORPHIC, none)) ∧
    ((pd.mm m).all (fun i => i.HasSemanticData) = true → pd.mm m ≠ [] →
      ((pd.mm m).map (fun i => i.TypeSignature)).dedup.length = 1 →
      m.IsDefinedAtGlobalScope = false →
      ie_def m pd cfg = (IEResult.NON_GLOBAL_SCOPE, none)) ∧
    ((pd.mm m).all (fun i => i.HasSemanticData) = true → pd.mm m ≠ [] →
      ((pd.mm m).map (fun i => i.TypeSignature)).dedup.length = 1 →
      m.IsDefinedAtGlobalScope = true →
      check_conditions (pd.mm m) pd GLOBAL_CONDITIONS ≠ IEResult.VALID →
      ie_def m pd cfg = (check_conditions (pd.mm m) pd GLOBAL_CONDITIONS, none)) ∧
    ((pd.mm m).all (fun i => i.HasSemanticData) = true → pd.mm m ≠ [] →
      ((pd.mm m).map (fun i => i.TypeSignature)).dedup.length = 1 →
      m.IsDefinedAtGlobalScope = true →
      check_conditions (pd.mm m) pd GLOBAL_CONDITIONS = IEResult.VALID →
      ie_def m pd cfg =
        (if m.IsObjectLike then object_like_cascade (pd.mm m) pd cfg
         else function_like_cascade (pd.mm m) pd)) := by
  refine ⟨?_, ?_, ?_, ?_, ?_, ?_, ?_⟩
  · rw [ie_def_snd_char]
    by_cases h : (ie_def m pd cfg).fst = IEResult.VALID <;> simp [h]
  · exact fun h => ie_def_stage_sem h
  · exact fun h1 h2 => ie_def_stage_empty h1 h2
  · exact fun h1 h2 h3 => ie_def_stage_poly h1 h2 h3
  · exact fun h1 h2 h3 h4 => ie_def_stage_scope h1 h2 h3 h4
  · exact fun h1 h2 h3 h4 h5 => ie_def_stage_global h1 h2 h3 h4 h5
  · exact fun h1 h2 h3 h4 h5 => ie_def_stage_kind h1 h2 h3 h4 h5

/-- Witness for C1 at a concrete input: the macro with an empty invocation
set passes the semantic-data precondition vacuously and is rejected as
never expanded. -/
theorem claim_C1_one_outcome_cascade_order_witness :
    (((pdOf []).mm mObj).all (fun i => i.HasSemanticData) = true ∧
      (pdOf []).mm mObj = []) ∧
    ie_def mObj (pdOf []) cfg32 = (IEResult.MACRO_NEVER_EXPANDED, none) :=
  ⟨⟨rfl, rfl⟩,
   (claim_C1_one_outcome_cascade_order mObj (pdOf []) cfg32).2.2.1 rfl rfl⟩

/-- C2: an object-like macro passing the structural preconditions and the
global conditions whose every invocation is not invoked where a constant
expression is required and has a constant-expression expansion is
translated to a global variable; no enum-side hypothesis is needed because
the `GlobalVariable` target is tried first. -/
theorem claim_C2_global_variable_before_enum (m : Macro) (pd : PreprocessorData)
    (cfg : TranslationConfig)
    (h1 : (pd.mm m).all (fun i => i.HasSemanticData) = true)
    (h2 : pd.mm m ≠ [])
    (h3 : ((pd.mm m).map (fun i => i.TypeSignature)).dedup.length = 1)
    (h4 : m.IsDefinedAtGlobalScope = true)
    (h5 : check_conditions (pd.mm m) pd GLOBAL_CONDITIONS = IEResult.VALID)
    (h6 : m.IsObjectLike = true)
    (h7 : ∀ i ∈ pd.mm m, i.IsInvokedWhereConstantExpressionRequired = false ∧
      i.IsExpansionConstantExpression = true) :
    ie_def m pd cfg = (IEResult.VALID, some TranslationTarget.GLOBAL_VARIABLE) := by
  have hv : check_conditions (pd.mm m) pd VARIABLE_CONDITIONS = IEResult.VALID := by
    rw [check_conditions_eq_valid_iff _ _ _ VARIABLE_CONDITIONS_result_ne_valid]
    intro i hi c hc
    obtain ⟨ha, hb⟩ := h7 i hi
    simp only [VARIABLE_CONDITIONS, List.mem_cons, List.not_mem_nil, or_false] at hc
    rcases hc with rfl | rfl <;> simp [ha, hb]
  rw [ie_def_stage_kind h1 h2 h3 h4 h5, if_pos h6]
  exact object_like_cascade_var hv

/-- Witness for C2 at a concrete input on which the enum conditions hold
as well: the invocation is an ICE, yet the chosen target is the global
variable. -/
theorem claim_C2_global_variable_before_enum_witness :
    (∀ i ∈ (pdOf [baseInv]).mm mObj, i.IsExpansionICE = true) ∧
    ie_def mObj (pdOf [baseInv]) cfg32 =
      (IEResult.VALID, some TranslationTarget.GLOBAL_VARIABLE) :=
  ⟨by decide,
   claim_C2_global_variable_before_enum mObj (pdOf [baseInv]) cfg32 (by decide)
     (by decide) (by decide) (by decide) (by decide) (by decide) (by decide)⟩

/-- Counterexample to C3 as stated: a macro whose single invocation is an
ICE, fails the `GlobalVariable` conditions, and is *not* invoked where an
ICE is required — the claim exempts it from the width check and predicts
`Translate(Enum)` — yet `ie_def` applies the width check to every
invocation and rejects it. -/
theorem claim_C3_counterexample :
    (∀ i ∈ (pdOf [iWide]).mm mObj, i.IsExpansionICE = true) ∧
    check_conditions ((pdOf [iWide]).mm mObj) (pdOf [iWide]) VARIABLE_CONDITIONS ≠
      IEResult.VALID ∧
    (∀ i ∈ (pdOf [iWide]).mm mObj, i.IsInvokedWhereICERequired = false) ∧
    ie_def mObj (pdOf [iWide]) cfg32 =
      (IEResult.INVOKED_WHERE_ICE_REQUIRED_AND_GREATER_THAN_INT_SIZE, none) :=
  ⟨by decide, by decide, by decide, by decide⟩

/-- C3 (amended): under the claim's hypotheses the outcome is
`Translate(Enum)` iff *every* invocation — not only those invoked where an
ICE is required — has its ICE value representable in the configured int
width; when the width check fails the reason is
`INVOKED_WHERE_ICE_REQUIRED_AND_GREATER_THAN_INT_SIZE`. -/
theorem claim_C3_enum_width_all_invocations (m : Macro) (pd : PreprocessorData)
    (cfg : TranslationConfig)
    (h1 : (pd.mm m).all (fun i => i.HasSemanticData) = true)
    (h2 : pd.mm m ≠ [])
    (h3 : ((pd.mm m).map (fun i => i.TypeSignature)).dedup.length = 1)
    (h4 : m.IsDefinedAtGlobalScope = true)
    (h5 : check_conditions (pd.mm m) pd GLOBAL_CONDITIONS = IEResult.VALID)
    (h6 : m.IsObjectLike = true)
    (hvar : check_conditions (pd.mm m) pd VARIABLE_CONDITIONS ≠ IEResult.VALID)
    (hice : ∀ i ∈ pd.mm m, i.IsExpansionICE = true) :
    (ie_def m pd cfg = (IEResult.VALID, some TranslationTarget.ENUM) ↔
      ∀ i ∈ pd.mm m, i.CanBeTurnedIntoEnumWithIntSize cfg.int_size = true) ∧
    ((¬ ∀ i ∈ pd.mm m, i.CanBeTurnedIntoEnumWithIntSize cfg.int_size = true) →
      ie_def m pd cfg =
        (IEResult.INVOKED_WHERE_ICE_REQUIRED_AND_GREATER_THAN_INT_SIZE, none)) := by
  have he : check_conditions (pd.mm m) pd ENUM_CONDITIONS = IEResult.VALID := by
    rw [check_conditions_eq_valid_iff _ _ _ ENUM_CONDITIONS_result_ne_valid]
    intro i hi c hc
    simp only [ENUM_CONDITIONS, List.mem_cons, List.not_mem_nil, or_false] at hc
    rcases hc with rfl
    simp [hice i hi]
  have hkind : ie_def m pd cfg = object_like_cascade (pd.mm m) pd cfg := by
    rw [ie_def_stage_kind h1 h2 h3 h4 h5, if_pos h6]
  constructor
  · rw [hkind]
    cases hw : (pd.mm m).all (fun i => i.CanBeTurnedIntoEnumWithIntSize cfg.int_size) with
    | true =>
      rw [object_like_cascade_enum hvar he hw]
      exact iff_of_true rfl (List.all_eq_true.mp hw)
    | false =>
      rw [object_like_cascade_wide hvar he hw]
      constructor
      · intro h
        simp at h
      · intro h
        have hall := List.all_eq_true.mpr h
        rw [hw] at hall
        cases hall
  · intro hnot
    have hw : (pd.mm m).all (fun i => i.CanBeTurnedIntoEnumWithIntSize cfg.int_size)
        = false := by
      cases hw : (pd.mm m).all (fun i => i.CanBeTurnedIntoEnumWithIntSize cfg.int_size) with
      | true => exact absurd (List.all_eq_true.mp hw) hnot
      | false => rfl
    rw [hkind, object_like_cascade_wide hvar he hw]

/-- Witness for the amended C3 at a concrete input whose invocation is
invoked where a constant expression is required but fits the configured
width: the macro is translated to an enum. -/
theorem claim_C3_enum_width_all_invocations_witness :
    ie_def mObj (pdOf [iEnumOk]) cfg32 = (IEResult.VALID, some TranslationTarget.ENUM) :=
  (claim_C3_enum_width_all_invocations mObj (pdOf [iEnumOk]) cfg32 (by decide)
    (by decide) (by decide) (by decide) (by decide) (by decide) (by decide)
    (by decide)).1.mpr (by decide)

/-- C7: a macro with an empty invocation set is rejected as never expanded
(the vacuously true has-semantic-data precondition does not mask the
reason), and in particular gets no translation target. -/
theorem claim_C7_empty_invocation_set (m : Macro) (pd : PreprocessorData)
    (cfg : TranslationConfig) (h : pd.mm m = []) :
    ie_def m pd cfg = (IEResult.MACRO_NEVER_EXPANDED, none) := by
  simp [ie_def, h]

/-- Witness for C7 at a concrete input. -/
theorem claim_C7_empty_invocation_set_witness :
    (pdOf []).mm mFn = [] ∧
    ie_def mFn (pdOf []) cfg32 = (IEResult.MACRO_NEVER_EXPANDED, none) :=
  ⟨rfl, claim_C7_empty_invocation_set mFn (pdOf []) cfg32 rfl⟩

/-- The enum conditions never report `CAPTURES_ENVIRONMENT`. -/
theorem ENUM_CONDITIONS_result_ne_captures :
    ∀ c ∈ ENUM_CONDITIONS, c.result ≠ IEResult.CAPTURES_ENVIRONMENT := by
  intro c hc
  simp only [ENUM_CONDITIONS, List.mem_cons, List.not_mem_nil, or_false] at hc
  rcases hc with rfl
  simp

/-- The argument conditions never report `CAPTURES_ENVIRONMENT`. -/
theorem ARGUMENT_CONDITIONS_result_ne_captures :
    ∀ c ∈ ARGUMENT_CONDITIONS, c.result ≠ IEResult.CAPTURES_ENVIRONMENT := by
  intro c hc
  simp only [ARGUMENT_CONDITIONS, List.mem_cons, List.not_mem_nil, or_false] at hc
  rcases hc with rfl | rfl | rfl | rfl | rfl <;> simp

/-- The void conditions never report `CAPTURES_ENVIRONMENT`. -/
theorem VOID_CONDITIONS_result_ne_captures :
    ∀ c ∈ VOID_CONDITIONS, c.result ≠ IEResult.CAPTURES_ENVIRONMENT := by
  intro c hc
  simp only [VOID_CONDITIONS, List.mem_cons, List.not_mem_nil, or_false] at hc
  rcases hc with rfl | rfl | rfl <;> simp

/-- Counterexample to C4 as stated: a macro whose single invocation has
its definition file among the locally included headers and does not
require altering declarations — exactly the claim's antecedent — is
rejected with `CAPTURES_ENVIRONMENT`, because the source condition passes
only definition files *not* among the local includes. -/
theorem claim_C4_counterexample :
    (∀ i ∈ pdLocalHdr.mm mObj,
      pdLocalHdr.local_includes.contains i.DefinitionLocationFilename = true ∧
      i.MustAlterDeclarationsToTransform = false) ∧
    (ie_def mObj pdLocalHdr cfg32).fst = IEResult.CAPTURES_ENVIRONMENT :=
  ⟨by decide, by decide⟩

/-- C4 (amended): a macro each of whose invocations has its definition
file *not* among the locally included headers and does not require
altering declarations to transform is never rejected with
`CAPTURES_ENVIRONMENT`. -/
theorem claim_C4_no_captures_environment (m : Macro) (pd : PreprocessorData)
    (cfg : TranslationConfig)
    (h : ∀ i ∈ pd.mm m,
      pd.local_includes.contains i.DefinitionLocationFilename = false ∧
      i.MustAlterDeclarationsToTransform = false) :
    (ie_def m pd cfg).fst ≠ IEResult.CAPTURES_ENVIRONMENT := by
  cases h1 : (pd.mm m).all (fun i => i.HasSemanticData) with
  | false => rw [ie_def_stage_sem h1]; simp
  | true =>
    by_cases h2 : pd.mm m = []
    · rw [ie_def_stage_empty h1 h2]; simp
    · by_cases h3 : ((pd.mm m).map (fun i => i.TypeSignature)).dedup.length = 1
      · cases h4 : m.IsDefinedAtGlobalScope with
        | false => rw [ie_def_stage_scope h1 h2 h3 h4]; simp
        | true =>
          by_cases h5 : check_conditions (pd.mm m) pd GLOBAL_CONDITIONS = IEResult.VALID
          · rw [ie_def_stage_kind h1 h2 h3 h4 h5]
            cases h6 : m.IsObjectLike with
            | true =>
              rw [if_pos rfl]
              by_cases hv : check_conditions (pd.mm m) pd VARIABLE_CONDITIONS =
                  IEResult.VALID
              · rw [object_like_cascade_var hv]; simp
              · by_cases he : check_conditions (pd.mm m) pd ENUM_CONDITIONS =
                    IEResult.VALID
                · cases hw : (pd.mm m).all
                      (fun i => i.CanBeTurnedIntoEnumWithIntSize cfg.int_size) with
                  | true => rw [object_like_cascade_enum hv he hw]; simp
                  | false => rw [object_like_cascade_wide hv he hw]; simp
                · rw [object_like_cascade_not_enum hv he]
                  intro hcap
                  obtain ⟨i, _, c, hc, _, hres⟩ :=
                    check_conditions_ne_valid_mem hcap (by decide)
                  exact absurd hres (ENUM_CONDITIONS_result_ne_captures c hc)
            | false =>
              rw [if_neg (by simp)]
              by_cases ha : check_conditions (pd.mm m) pd ARGUMENT_CONDITIONS =
                  IEResult.VALID
              · by_cases hn : check_conditions (pd.mm m) pd NON_VOID_CONDITIONS =
                    IEResult.VALID
                · rw [function_like_cascade_non_void ha hn]; simp
                · by_cases hvd : check_conditions (pd.mm m) pd VOID_CONDITIONS =
                      IEResult.VALID
                  · rw [function_like_cascade_void ha hn hvd]; simp
                  · rw [function_like_cascade_neither ha hn hvd]
                    intro hcap
                    obtain ⟨i, _, c, hc, _, hres⟩ :=
                      check_conditions_ne_valid_mem hcap (by decide)
                    exact absurd hres (VOID_CONDITIONS_result_ne_captures c hc)
              · rw [function_like_cascade_arg ha]
                intro hcap
                obtain ⟨i, _, c, hc, _, hres⟩ :=
                  check_conditions_ne_valid_mem hcap (by decide)
                exact absurd hres (ARGUMENT_CONDITIONS_result_ne_captures c hc)
          · rw [ie_def_stage_global h1 h2 h3 h4 h5]
            intro hcap
            obtain ⟨i, hi, c, hc, hfail, hres⟩ :=
              check_conditions_ne_valid_mem hcap (by decide)
            simp only [GLOBAL_CONDITIONS, List.mem_cons, List.not_mem_nil, or_false] at hc
            rcases hc with rfl | rfl | rfl | rfl | rfl | rfl | rfl
            · simp at hres
            · simp at hres
            · simp at hres
            · have hmem := (h i hi).1
              simp at hmem hfail
              exact hmem hfail
            · simp [(h i hi).2] at hfail
            · simp at hres
            · simp at hres
      · rw [ie_def_stage_poly h1 h2 h3]; simp

/-- Witness for the amended C4 at a concrete input: the invocation's
definition file is not among the (empty) local includes and needs no
declaration changes, and the classification indeed does not report
`CAPTURES_ENVIRONMENT`. -/
theorem claim_C4_no_captures_environment_witness :
    (ie_def mObj (pdOf [baseInv]) cfg32).fst ≠ IEResult.CAPTURES_ENVIRONMENT :=
  claim_C4_no_captures_environment mObj (pdOf [baseInv]) cfg32 (by decide)

/-- If some invocation is called by name and every invocation failing any
argument condition is called by name, the argument check reports
`CALLED_BY_NAME` (the called-by-name row is the first argument
condition). -/
theorem arg_check_called_by_name {l : List Invocation} {pd : PreprocessorData}
    (hsome : ∃ i ∈ l, i.IsCalledByName = true)
    (hfirst : ∀ i ∈ l, (∃ c ∈ ARGUMENT_CONDITIONS, c.check i pd = false) →
      i.IsCalledByName = true) :
    check_conditions l pd ARGUMENT_CONDITIONS = IEResult.CALLED_BY_NAME := by
  induction l with
  | nil =>
    obtain ⟨i, hi, _⟩ := hsome
    cases hi
  | cons a rest ih =>
    by_cases hc : a.IsCalledByName = true
    · have : check_invocation a pd ARGUMENT_CONDITIONS =
          some IEResult.CALLED_BY_NAME := by
        simp [check_invocation, ARGUMENT_CONDITIONS, hc]
      simp [check_conditions, this]
    · have hpass : ∀ c ∈ ARGUMENT_CONDITIONS, c.check a pd = true := by
        intro c hcmem
        by_contra hne
        have hf : c.check a pd = false := by
          revert hne; cases c.check a pd <;> simp
        exact hc (hfirst a (List.mem_cons_self _ _) ⟨c, hcmem, hf⟩)
      have hnone : check_invocation a pd ARGUMENT_CONDITIONS = none :=
        (check_invocation_eq_none_iff a pd ARGUMENT_CONDITIONS).mpr hpass
      simp only [check_conditions, hnone]
      apply ih
      · obtain ⟨i, hi, hical⟩ := hsome
        rcases List.mem_cons.mp hi with rfl | hi'
        · exact absurd hical hc
        · exact ⟨i, hi', hical⟩
      · intro i hi
        exact hfirst i (List.mem_cons_of_mem _ hi)

/-- Counterexample to C5 as stated: a function-like macro passing the
structural preconditions and the global conditions with one invocation
that is called by name, yet the reported reason is a *later* argument
condition, because an earlier invocation in iteration order fails the
argument-constant-expression row first. -/
theorem claim_C5_counterexample :
    check_conditions ((pdOf [iArgConst, iSideEffect]).mm mFn)
      (pdOf [iArgConst, iSideEffect]) GLOBAL_CONDITIONS = IEResult.VALID ∧
    (∃ i ∈ (pdOf [iArgConst, iSideEffect]).mm mFn, i.IsCalledByName = true) ∧
    ie_def mFn (pdOf [iArgConst, iSideEffect]) cfg32 =
      (IEResult.ARGUMENT_INVOKED_WHERE_CONSTANT_EXPRESSION_REQUIRED, none) ∧
    (ie_def mFn (pdOf [iArgConst, iSideEffect]) cfg32).fst ≠ IEResult.CALLED_BY_NAME :=
  ⟨by decide, by decide, by decide, by decide⟩

/-- C5 (amended): for a function-like macro passing the structural
preconditions and the global conditions, if some invocation has a
side-effecting or conditionally evaluated argument and every invocation
failing any argument condition is such a called-by-name invocation, the
outcome is `Reject(CALLED_BY_NAME)`; within one invocation this reason
takes precedence over the later argument conditions, and the argument
check precedes the non-void/void cascades. -/
theorem claim_C5_called_by_name (m : Macro) (pd : PreprocessorData)
    (cfg : TranslationConfig)
    (h1 : (pd.mm m).all (fun i => i.HasSemanticData) = true)
    (h2 : pd.mm m ≠ [])
    (h3 : ((pd.mm m).map (fun i => i.TypeSignature)).dedup.length = 1)
    (h4 : m.IsDefinedAtGlobalScope = true)
    (h5 : check_conditions (pd.mm m) pd GLOBAL_CONDITIONS = IEResult.VALID)
    (h6 : m.IsObjectLike = false)
    (hsome : ∃ i ∈ pd.mm m, i.IsCalledByName = true)
    (hfirst : ∀ i ∈ pd.mm m, (∃ c ∈ ARGUMENT_CONDITIONS, c.check i pd = false) →
      i.IsCalledByName = true) :
    ie_def m pd cfg = (IEResult.CALLED_BY_NAME, none) := by
  have ha : check_conditions (pd.mm m) pd ARGUMENT_CONDITIONS =
      IEResult.CALLED_BY_NAME := arg_check_called_by_name hsome hfirst
  rw [ie_def_stage_kind h1 h2 h3 h4 h5, if_neg (by simp [h6]),
    function_like_cascade_arg (by rw [ha]; decide), ha]

/-- Witness for the amended C5 at a concrete input: a single invocation
with a side-effecting argument is rejected as called by name. -/
theorem claim_C5_called_by_name_witness :
    ie_def mFn (pdOf [iSideEffect]) cfg32 = (IEResult.CALLED_BY_NAME, none) :=
  claim_C5_called_by_name mFn (pdOf [iSideEffect]) cfg32 (by decide) (by decide)
    (by decide) (by decide) (by decide) (by decide)
    ⟨iSideEffect, by decide, by decide⟩ (by decide)

/-- Counterexample to C6 as stated: two orderings of the same two-element
invocation set yield different rejection reasons (first-failure-wins is
resolved per invocation in iteration order). -/
theorem claim_C6_counterexample :
    ((pdOf [iAddr, iCompound]).mm mObj).Perm ((pdOf [iCompound, iAddr]).mm mObj) ∧
    ie_def mObj (pdOf [iAddr, iCompound]) cfg32 =
      (IEResult.ADDRESSABLE_VALUE_REQUIRED, none) ∧
    ie_def mObj (pdOf [iCompound, iAddr]) cfg32 =
      (IEResult.SYNTACTICALLY_INVALID_PROPERTY, none) ∧
    ie_def mObj (pdOf [iAddr, iCompound]) cfg32 ≠
      ie_def mObj (pdOf [iCompound, iAddr]) cfg32 :=
  ⟨List.Perm.swap iCompound iAddr [], by decide, by decide, by decide⟩

/-- C6 (amended): classification is a pure function of the
preprocessor-data value, and over any two iteration orders of the same
invocation set (with the same inspected-name and local-include sets) the
validity of the outcome and the chosen translation target coincide; only
the choice among rejection reasons may depend on the iteration order. -/
theorem claim_C6_order_independent_outcome (m : Macro) (pd pd' : PreprocessorData)
    (cfg : TranslationConfig)
    (hperm : (pd.mm m).Perm (pd'.mm m))
    (hin : pd.inspected_macro_names = pd'.inspected_macro_names)
    (hlo : pd.local_includes = pd'.local_includes) :
    ((ie_def m pd cfg).fst = IEResult.VALID ↔
      (ie_def m pd' cfg).fst = IEResult.VALID) ∧
    (ie_def m pd cfg).snd = (ie_def m pd' cfg).snd := by
  have hsem : ((pd.mm m).all (fun i => i.HasSemanticData) = true) ↔
      ((pd'.mm m).all (fun i => i.HasSemanticData) = true) := by
    rw [perm_all_eq hperm]
  have hnil : (pd.mm m ≠ []) ↔ (pd'.mm m ≠ []) := by
    constructor <;> intro hne h
    · rw [h] at hperm
      exact hne hperm.eq_nil
    · rw [h] at hperm
      exact hne hperm.symm.eq_nil
  have hdedup : (((pd.mm m).map (fun i => i.TypeSignature)).dedup.length = 1) ↔
      (((pd'.mm m).map (fun i => i.TypeSignature)).dedup.length = 1) := by
    rw [((hperm.map (fun i => i.TypeSignature)).dedup).length_eq]
  have hglob : (check_conditions (pd.mm m) pd GLOBAL_CONDITIONS = IEResult.VALID) ↔
      (check_conditions (pd'.mm m) pd' GLOBAL_CONDITIONS = IEResult.VALID) :=
    check_conditions_valid_congr hperm (GLOBAL_CONDITIONS_check_congr hin hlo)
      GLOBAL_CONDITIONS_result_ne_valid
  have hvar : (check_conditions (pd.mm m) pd VARIABLE_CONDITIONS = IEResult.VALID) ↔
      (check_conditions (pd'.mm m) pd' VARIABLE_CONDITIONS = IEResult.VALID) :=
    check_conditions_valid_congr hperm (VARIABLE_CONDITIONS_check_irrel pd pd')
      VARIABLE_CONDITIONS_result_ne_valid
  have henum : (check_conditions (pd.mm m) pd ENUM_CONDITIONS = IEResult.VALID) ↔
      (check_conditions (pd'.mm m) pd' ENUM_CONDITIONS = IEResult.VALID) :=
    check_conditions_valid_congr hperm (ENUM_CONDITIONS_check_irrel pd pd')
      ENUM_CONDITIONS_result_ne_valid
  have harg : (check_conditions (pd.mm m) pd ARGUMENT_CONDITIONS = IEResult.VALID) ↔
      (check_conditions (pd'.mm m) pd' ARGUMENT_CONDITIONS = IEResult.VALID) :=
    check_conditions_valid_congr hperm (ARGUMENT_CONDITIONS_check_irrel pd pd')
      ARGUMENT_CONDITIONS_result_ne_valid
  have hnv : (check_conditions (pd.mm m) pd NON_VOID_CONDITIONS = IEResult.VALID) ↔
      (check_conditions (pd'.mm m) pd' NON_VOID_CONDITIONS = IEResult.VALID) :=
    check_conditions_valid_congr hperm (NON_VOID_CONDITIONS_check_irrel pd pd')
      NON_VOID_CONDITIONS_result_ne_valid
  have hvd : (check_conditions (pd.mm m) pd VOID_CONDITIONS = IEResult.VALID) ↔
      (check_conditions (pd'.mm m) pd' VOID_CONDITIONS = IEResult.VALID) :=
    check_conditions_valid_congr hperm (VOID_CONDITIONS_check_irrel pd pd')
      VOID_CONDITIONS_result_ne_valid
  have hwidth : ((pd.mm m).all
        (fun i => i.CanBeTurnedIntoEnumWithIntSize cfg.int_size) = true) ↔
      ((pd'.mm m).all
        (fun i => i.CanBeTurnedIntoEnumWithIntSize cfg.int_size) = true) := by
    rw [perm_all_eq hperm]
  have hvalid : ((ie_def m pd cfg).fst = IEResult.VALID) ↔
      ((ie_def m pd' cfg).fst = IEResult.VALID) := by
    rw [ie_def_fst_valid_iff, ie_def_fst_valid_iff]
    apply and_congr hsem
    apply and_congr hnil
    apply and_congr hdedup
    apply and_congr Iff.rfl
    apply and_congr hglob
    by_cases hob : m.IsObjectLike = true
    · rw [if_pos hob, if_pos hob]
      exact or_congr hvar (and_congr henum hwidth)
    · rw [if_neg hob, if_neg hob]
      exact and_congr harg (or_congr hnv hvd)
  refine ⟨hvalid, ?_⟩
  rw [ie_def_snd_char m pd cfg, ie_def_snd_char m pd' cfg]
  apply if_congr hvalid _ rfl
  apply congrArg some
  by_cases hob : m.IsObjectLike = true
  · rw [if_pos hob, if_pos hob]
    exact if_congr hvar rfl rfl
  · rw [if_neg hob, if_neg hob]
    exact if_congr hnv rfl rfl

/-- Witness for the amended C6 at the two concrete orderings of the
counterexample set: validity and target coincide even though the reasons
differ. -/
theorem claim_C6_order_independent_outcome_witness :
    ((ie_def mObj (pdOf [iAddr, iCompound]) cfg32).fst = IEResult.VALID ↔
      (ie_def mObj (pdOf [iCompound, iAddr]) cfg32).fst = IEResult.VALID) ∧
    (ie_def mObj (pdOf [iAddr, iCompound]) cfg32).snd =
      (ie_def mObj (pdOf [iCompound, iAddr]) cfg32).snd :=
  claim_C6_order_independent_outcome mObj (pdOf [iAddr, iCompound])
    (pdOf [iCompound, iAddr]) cfg32 (List.Perm.swap iCompound iAddr []) rfl rfl

/-- C8 (code bug): at the failing input the classification itself orders
a void-function translation — `ie_def` returns `VALID` with target
`VOID_FUNCTION` — so a rendered replacement is due; the frozen
`macrotranslator.py` renderer can never produce it (see the header note
on why that module has no executable semantics). -/
theorem claim_C8_void_translation_due :
    ie_def mLog (pdOf [iVoidStmt]) cfg32 =
      (IEResult.VALID, some TranslationTarget.VOID_FUNCTION) := by decide

/-- C10 (code bug): at the failing input the legacy generator renders a
`static const` translation; the frozen `MacroTranslator` counterpart can
produce no translation map at all (see the header note), so the two
generators cannot agree. -/
theorem claim_C10_legacy_renders_translation :
    legacy_macro_translation mObj [baseInv] cfg32 =
      some (some "static const int x = 5;") := by decide

/-! Agreement of the assertion-aware variants with the plain definitions:
each lemma's hypotheses are the asserted preconditions. -/

theorem IsAlignedA_eq {i : Invocation} (h : i.IsTopLevelNonArgument = true) :
    i.IsAlignedA = some i.IsAligned := by
  simp [Invocation.IsAlignedA, h]

theorem HasSemanticDataA_eq {i : Invocation} (h : i.IsTopLevelNonArgument = true) :
    i.HasSemanticDataA = some i.HasSemanticData := by
  simp [Invocation.HasSemanticDataA, IsAlignedA_eq h, Invocation.HasSemanticData]

theorem CanBeTurnedIntoEnumA_eq {i : Invocation}
    (h : i.IsTopLevelNonArgument = true) (hs : i.HasSemanticData = true) :
    i.CanBeTurnedIntoEnumA = some i.CanBeTurnedIntoEnum := by
  simp [Invocation.CanBeTurnedIntoEnumA, HasSemanticDataA_eq h, hs,
    Invocation.CanBeTurnedIntoEnum]

theorem CanBeTurnedIntoFunctionA_eq {i : Invocation}
    (h : i.IsTopLevelNonArgument = true) (hs : i.HasSemanticData = true) :
    i.CanBeTurnedIntoFunctionA = some i.CanBeTurnedIntoFunction := by
  simp [Invocation.CanBeTurnedIntoFunctionA, HasSemanticDataA_eq h, hs]

theorem MustAlterDeclarationsToTransformA_eq {i : Invocation}
    (h : i.IsTopLevelNonArgument = true) (hs : i.HasSemanticData = true) :
    i.MustAlterDeclarationsToTransformA =
      some i.MustAlterDeclarationsToTransform := by
  simp [Invocation.MustAlterDeclarationsToTransformA, HasSemanticDataA_eq h, hs]

theorem CanBeTurnedIntoEnumWithIntSizeA_eq {i : Invocation} (sz : IntSize)
    (h : i.IsTopLevelNonArgument = true) (hs : i.HasSemanticData = true) :
    i.CanBeTurnedIntoEnumWithIntSizeA sz =
      some (i.CanBeTurnedIntoEnumWithIntSize sz) := by
  simp [Invocation.CanBeTurnedIntoEnumWithIntSizeA, CanBeTurnedIntoEnumA_eq h hs,
    Invocation.CanBeTurnedIntoEnumWithIntSize]

theorem MustUseMetaprogrammingToTransformA_eq {i : Invocation}
    (h : i.IsTopLevelNonArgument = true) :
    i.MustUseMetaprogrammingToTransformA =
      some i.MustUseMetaprogrammingToTransform := by
  unfold Invocation.MustUseMetaprogrammingToTransformA
    Invocation.MustUseMetaprogrammingToTransform
  by_cases hst : (i.HasStringification || i.HasTokenPasting) = true
  · simp [hst]
  · have hst' : (i.HasStringification || i.HasTokenPasting) = false := by
      revert hst; cases i.HasStringification <;> cases i.HasTokenPasting <;> simp
    rw [if_neg hst, HasSemanticDataA_eq h]
    cases hh : i.HasSemanticData with
    | false => simp [hst', hh]
    | true =>
      cases hfl : i.IsFunctionLike with
      | false => simp [hst', hh, hfl]
      | true => simp [hst', hh, hfl, CanBeTurnedIntoFunctionA_eq h hh]

theorem mapMA_eq_some_map {l : List Invocation} {p : Invocation → Option Bool}
    {q : Invocation → Bool} (h : ∀ i ∈ l, p i = some (q i)) :
    mapMA l p = some (l.map q) := by
  induction l with
  | nil => rfl
  | cons a rest ih =>
    simp [mapMA, h a (List.mem_cons_self _ _),
      ih (fun i hi => h i (List.mem_cons_of_mem _ hi))]

theorem all_map_id (l : List Invocation) (q : Invocation → Bool) :
    (l.map q).all (fun b => b) = l.all q := by
  induction l with
  | nil => rfl
  | cons a rest ih => simp [List.all_cons, ih]

theorem check_invocationA_eq {i : Invocation} {pd : PreprocessorData}
    {csA : List ConditionA} {cs : List Condition}
    (h : List.Forall₂ (fun (ca : ConditionA) (c : Condition) =>
      ca.check i pd = some (c.check i pd) ∧ ca.result = c.result) csA cs) :
    check_invocationA i pd csA = some (check_invocation i pd cs) := by
  induction h with
  | nil => rfl
  | @cons ca c csA' cs' hd _ ih =>
    obtain ⟨hc, hr⟩ := hd
    simp only [check_invocationA, check_invocation, hc, Option.some_bind]
    by_cases hcc : c.check i pd = true
    · simp [hcc, ih]
    · simp [hcc, hr]

theorem check_conditionsA_eq {l : List Invocation} {pd : PreprocessorData}
    {csA : List ConditionA} {cs : List Condition}
    (h : ∀ i ∈ l, List.Forall₂ (fun (ca : ConditionA) (c : Condition) =>
      ca.check i pd = some (c.check i pd) ∧ ca.result = c.result) csA cs) :
    check_conditionsA l pd csA = some (check_conditions l pd cs) := by
  induction l with
  | nil => rfl
  | cons a rest ih =>
    simp only [check_conditionsA, check_conditions]
    rw [check_invocationA_eq (h a (List.mem_cons_self _ _)), Option.some_bind]
    cases hr : check_invocation a pd cs with
    | some r => simp
    | none => simp [ih (fun i hi => h i (List.mem_cons_of_mem _ hi))]

theorem GLOBAL_CONDITIONS_forall2 {i : Invocation} {pd : PreprocessorData}
    (h : i.IsTopLevelNonArgument = true) (hs : i.HasSemanticData = true) :
    List.Forall₂ (fun (ca : ConditionA) (c : Condition) =>
      ca.check i pd = some (c.check i pd) ∧ ca.result = c.result)
      GLOBAL_CONDITIONSA GLOBAL_CONDITIONS := by
  refine List.Forall₂.cons ⟨HasSemanticDataA_eq h, rfl⟩ ?_
  refine List.Forall₂.cons ⟨rfl, rfl⟩ ?_
  refine List.Forall₂.cons ⟨rfl, rfl⟩ ?_
  refine List.Forall₂.cons ⟨rfl, rfl⟩ ?_
  refine List.Forall₂.cons ⟨?_, rfl⟩ ?_
  · simp [MustAlterDeclarationsToTransformA_eq h hs]
  refine List.Forall₂.cons ⟨?_, rfl⟩ ?_
  · simp [MustUseMetaprogrammingToTransformA_eq h]
  exact List.Forall₂.cons ⟨rfl, rfl⟩ List.Forall₂.nil

/-- Under the top-level non-argument precondition, the assertion-aware
classification never fails and computes the plain classification. -/
theorem ie_defA_eq (m : Macro) (pd : PreprocessorData) (cfg : TranslationConfig)
    (h : ∀ i ∈ pd.mm m, i.IsTopLevelNonArgument = true) :
    ie_defA m pd cfg = some (ie_def m pd cfg) := by
  have htl : (pd.mm m).all (fun i => i.IsTopLevelNonArgument) = true :=
    List.all_eq_true.mpr h
  have hmapm : mapMA (pd.mm m) (fun i => i.HasSemanticDataA) =
      some ((pd.mm m).map (fun i => i.HasSemanticData)) :=
    mapMA_eq_some_map (fun i hi => HasSemanticDataA_eq (h i hi))
  simp only [ie_defA, htl, Bool.not_true, Bool.false_eq_true, if_false, hmapm,
    Option.some_bind, all_map_id]
  cases hsem : (pd.mm m).all (fun i => i.HasSemanticData) with
  | false =>
    rw [ie_def_stage_sem hsem]
    simp
  | true =>
    have hsems : ∀ i ∈ pd.mm m, i.HasSemanticData = true := List.all_eq_true.mp hsem
    simp only [Bool.not_true, Bool.false_eq_true, if_false]
    by_cases h2 : pd.mm m = []
    · rw [if_pos (by simp [h2]), ie_def_stage_empty hsem h2]
    · rw [if_neg (by simp [List.length_eq_zero, h2])]
      by_cases h3 : ((pd.mm m).map (fun i => i.TypeSignature)).dedup.length = 1
      · rw [if_neg (by simp [h3])]
        cases h4 : m.IsDefinedAtGlobalScope with
        | false => rw [if_pos (by simp [h4]), ie_def_stage_scope hsem h2 h3 h4]
        | true =>
          rw [if_neg (by simp [h4]),
            check_conditionsA_eq
              (fun i hi => GLOBAL_CONDITIONS_forall2 (h i hi) (hsems i hi)),
            Option.some_bind]
          by_cases h5 : check_conditions (pd.mm m) pd GLOBAL_CONDITIONS =
              IEResult.VALID
          · rw [if_neg (by simp [h5]), ie_def_stage_kind hsem h2 h3 h4 h5]
            by_cases hob : m.IsObjectLike = true
            · rw [if_pos hob, if_pos hob]
              by_cases hv : check_conditions (pd.mm m) pd VARIABLE_CONDITIONS =
                  IEResult.VALID
              · rw [if_pos hv, object_like_cascade_var hv]
              · rw [if_neg hv]
                by_cases he : check_conditions (pd.mm m) pd ENUM_CONDITIONS =
                    IEResult.VALID
                · rw [if_pos he]
                  have hmw : mapMA (pd.mm m)
                      (fun i => i.CanBeTurnedIntoEnumWithIntSizeA cfg.int_size) =
                      some ((pd.mm m).map
                        (fun i => i.CanBeTurnedIntoEnumWithIntSize cfg.int_size)) :=
                    mapMA_eq_some_map (fun i hi =>
                      CanBeTurnedIntoEnumWithIntSizeA_eq _ (h i hi) (hsems i hi))
                  rw [hmw, Option.some_bind, all_map_id]
                  cases hw : (pd.mm m).all
                      (fun i => i.CanBeTurnedIntoEnumWithIntSize cfg.int_size) with
                  | true =>
                    rw [if_pos rfl, object_like_cascade_enum hv he hw, he]
                  | false =>
                    rw [if_neg (by simp), object_like_cascade_wide hv he hw]
                · rw [if_neg he, object_like_cascade_not_enum hv he]
            · rw [if_neg hob, if_neg hob]
          · rw [if_pos h5, ie_def_stage_global hsem h2 h3 h4 h5]
      · rw [if_pos h3, ie_def_stage_poly hsem h2 h3]

/-- C9: when every invocation is top-level non-argument, classification
never fails an internal assertion: with every `assert` of
`IsTopLevelNonArgument` or `HasSemanticData` modelled as a possible
failure (`IsAligned`, `HasSemanticData`, `CanBeTurnedIntoEnum`,
`CanBeTurnedIntoEnumWithIntSize`, `MustAlterDeclarationsToTransform`,
`MustUseMetaprogrammingToTransform`), the assertion-aware classification
agrees with the plain one, so every assertion-failure branch reached from
`ie_def` is unreachable. -/
theorem claim_C9_assertions_unreachable (m : Macro) (pd : PreprocessorData)
    (cfg : TranslationConfig)
    (h : ∀ i ∈ pd.mm m, i.IsTopLevelNonArgument = true) :
    ie_defA m pd cfg = some (ie_def m pd cfg) :=
  ie_defA_eq m pd cfg h

/-- Witness for C9 at a concrete input. -/
theorem claim_C9_assertions_unreachable_witness :
    ie_defA mObj (pdOf [baseInv]) cfg32 =
      some (ie_def mObj (pdOf [baseInv]) cfg32) :=
  claim_C9_assertions_unreachable mObj (pdOf [baseInv]) cfg32 (by decide)

end Merc
